import Mathlib

/-!
Sign and Verify of the jwt package.

A shallow embedding of `sign.go` and `verify.go`.

* Go maps `map[string]interface{}` are lookups `String → Option Value`, wrapped in
  `Option` where the Go value can be the nil map.
* Go multiple results `(value, error)` are kept as tuples whose error component is
  `none` for a nil error, so that every `err != nil` test of the source is a test here.
* `Sign` writes through its `*SignOption`; the embedding returns the state of the
  caller's object next to the results.
* `Verify` dereferences its `*VerifyOption`; a nil dereference is an outcome of its own.
* What the two files use but do not define (the clock, `json.Marshal`, `decode`, the
  table `algImpMap`) is collected in `Env`; `base64.StdEncoding` and `bytes.Join` are
  written out.
* The maps that the caller hands in, `payload` and `opt.Header`, are assigned to nowhere
  in the two files; they reach `mergo.Map` as the source of a merge, and what that call
  leaves in them is `mergoMapSource`.
-/

namespace Jwt

/-! ## Data -/

/-- One byte. -/
abbrev Byte := Fin 256

/-- A Go byte slice. -/
abbrev Bytes := List Byte

/-- A Go `interface{}` value as it is stored in a header or a claims map, seen at the
level of JSON: the named string type `Algorithm` and `string` are both `str`, `int64`
and `time.Duration` are both `num`. Only `str` answers the type assertion `.(string)`. -/
inductive Value where
  | null
  | bool (b : Bool)
  | num (n : Int)
  | str (s : String)
  | arr (items : List Value)
  | obj (fields : List (String × Value))

/-- The entries of a non-nil Go map with string keys. -/
abbrev Entries := String → Option Value

/-- A Go map value: `none` is the nil map. -/
abbrev GoMap := Option Entries

/-- The map with no entries. -/
def Entries.empty : Entries := fun _ => none

/-- The assignment `m[k] = v`. -/
def Entries.set (m : Entries) (k : String) (v : Value) : Entries :=
  fun k' => if k' = k then some v else m k'

/-- The index expression `v, ok = m[k]`; reading a nil map finds nothing. -/
def GoMap.lookup (m : GoMap) (k : String) : Option Value :=
  match m with
  | none => none
  | some e => e k

/-- The type `Algorithm`, a named string. -/
abbrev Algorithm := String

/-- The identifier `HS256`. -/
def HS256 : Algorithm := "HS256"

/-- The separator `periodBytes`, the single byte of a full stop. -/
def periodBytes : Bytes := [46]

/-- Error values. The four named ones are those the two files return themselves; `other`
is any error value made elsewhere (by `decode`, `json.Marshal`, `mergo.Map` or an
algorithm implementation). -/
inductive Error where
  | ErrEmptyPayload
  | ErrEmptySecretOrPrivateKey
  | ErrInvalidAlgorithm
  | ErrInvalidHeaderType
  | other (msg : String)
  deriving DecidableEq, Repr

/-- A non-nil value passed as `secretOrPrivateKey`. -/
inductive Key where
  | str (s : String)
  | bytes (b : Bytes)
  | object (id : Nat)
  deriving DecidableEq, Repr

/-- The struct `SignOption`; `ExpiresIn` is a `time.Duration`, a count of nanoseconds.
The default of every field is the Go zero value. -/
structure SignOption where
  Algorithm : Jwt.Algorithm := ""
  ExpiresIn : Int := 0
  Audience : String := ""
  Issuer : String := ""
  Subject : String := ""
  Header : GoMap := none

/-- The struct `VerifyOption`. -/
structure VerifyOption where
  Algorithm : Jwt.Algorithm := ""
  IngoreExpiration : Bool := false
  Audience : String := ""
  Subject : String := ""
  clockTolerance : Int := 0

/-- The interface `algorithmImplementation`: the two methods the source calls. -/
structure AlgorithmImplementation where
  sign : Bytes → Option Key → Bytes × Option Error
  verify : Bytes → Option Key → Option Error

/-- What `sign.go` and `verify.go` use without defining it. -/
structure Env where
  /-- The value of `time.Now().Unix()`. -/
  now : Int
  /-- The function `json.Marshal` on a map. -/
  jsonMarshal : Entries → Bytes × Option Error
  /-- The function `decode` of the package: header, payload, error. -/
  decode : Bytes → GoMap × GoMap × Option Error
  /-- The table `algImpMap`. -/
  algImpMap : Algorithm → Option AlgorithmImplementation

/-! ## Library functions written out -/

/-- The function `bytes.Join`. -/
def bytesJoin : List Bytes → Bytes → Bytes
  | [], _ => []
  | [a], _ => a
  | a :: b :: rest, sep => a ++ sep ++ bytesJoin (b :: rest) sep

/-- The alphabet of `base64.StdEncoding`. -/
def encodeStd : String :=
  "ABCDEFGHIJKLMNOPQRSTUVWXYZabcdefghijklmnopqrstuvwxyz0123456789+/"

/-- The byte of the alphabet at index `i`. -/
def encodeStdAt (i : Nat) : Byte :=
  Fin.ofNat ((encodeStd.toList.getD i 'A').toNat)

/-- The padding byte `=` of `base64.StdEncoding`. -/
def padChar : Byte := 61

/-- The function `base64.StdEncoding.EncodeToString`, as bytes. -/
def base64StdEncode : Bytes → Bytes
  | a :: b :: c :: rest =>
    let val := a.val * 65536 + b.val * 256 + c.val
    encodeStdAt (val / 262144 % 64) :: encodeStdAt (val / 4096 % 64) ::
      encodeStdAt (val / 64 % 64) :: encodeStdAt (val % 64) :: base64StdEncode rest
  | [a, b] =>
    let val := a.val * 65536 + b.val * 256
    [encodeStdAt (val / 262144 % 64), encodeStdAt (val / 4096 % 64),
      encodeStdAt (val / 64 % 64), padChar]
  | [a] =>
    let val := a.val * 65536
    [encodeStdAt (val / 262144 % 64), encodeStdAt (val / 4096 % 64), padChar, padChar]
  | [] => []

/-- Modelled from the spec: `mergo.Map` of the third-party package mergo, whose source is
not part of the repository. The spec gives it as insert-if-absent on a flat map: every
key of the source map that is not already present in the destination is added, present
keys keep their value, and merging a map into a map does not fail. -/
def mergoMap (dst : Entries) (src : GoMap) : Entries × Option Error :=
  (fun k => match dst k with
    | some v => some v
    | none => src.lookup k, none)

/-! ## sign.go -/

/-- The map `h` of `marshalHeader` when it reaches `json.Marshal`, or the error of the
merge (lines 76 to 85). -/
def headerMap (opt : SignOption) : Entries × Option Error :=
  let h : Entries := (Entries.empty.set "alg" (.str opt.Algorithm)).set "typ" (.str "JWT")
  match opt.Header with
  | none => (h, none)
  | some ext => mergoMap h (some ext)

/-- The function `marshalHeader`. -/
def marshalHeader (env : Env) (opt : SignOption) : Bytes × Option Error :=
  match headerMap opt with
  | (_, some err) => ([], some err)
  | (h, none) => env.jsonMarshal h

/-- The map `claims` of `marshalPayload` when it reaches `json.Marshal`, or the error of
the merge (lines 91 to 108). The division of a `time.Duration` by `1e9` is Go integer
division, which truncates toward zero. -/
def claimsMap (now : Int) (payload : GoMap) (opt : SignOption) : Entries × Option Error :=
  let claims : Entries := Entries.empty.set "iat" (.num now)
  let claims := if opt.Issuer ≠ "" then claims.set "iss" (.str opt.Issuer) else claims
  let claims :=
    if opt.ExpiresIn ≠ 0 then claims.set "exp" (.num (opt.ExpiresIn.tdiv 1000000000))
    else claims
  let claims := if opt.Subject ≠ "" then claims.set "sub" (.str opt.Subject) else claims
  let claims := if opt.Audience ≠ "" then claims.set "aud" (.str opt.Audience) else claims
  mergoMap claims payload

/-- The function `marshalPayload`. -/
def marshalPayload (env : Env) (payload : GoMap) (opt : SignOption) : Bytes × Option Error :=
  match claimsMap env.now payload opt with
  | (_, some err) => ([], some err)
  | (claims, none) => env.jsonMarshal claims

/-- What a call of `Sign` leaves behind: the two results and the caller's `SignOption`
object as it is after the call (`none` when the caller passed nil). -/
structure SignOutcome where
  token : Option Bytes
  err : Option Error
  opt : Option SignOption

/-- The function `Sign`. -/
def Sign (env : Env) (payload : GoMap) (secretOrPrivateKey : Option Key)
    (opt : Option SignOption) : SignOutcome :=
  match payload with
  | none => ⟨none, some .ErrEmptyPayload, opt⟩
  | some _ =>
    let o : SignOption := opt.getD {}
    match secretOrPrivateKey with
    | none => ⟨none, some .ErrEmptySecretOrPrivateKey, opt⟩
    | some _ =>
      match marshalHeader env o with
      | (_, some err) => ⟨none, some err, opt⟩
      | (headerJSON, none) =>
        let hBase64 := base64StdEncode headerJSON
        match marshalPayload env payload o with
        | (_, some err) => ⟨none, some err, opt⟩
        | (payloadJSON, none) =>
          let pBase64 := base64StdEncode payloadJSON
          let o := if o.Algorithm = "" then { o with Algorithm := HS256 } else o
          let opt := opt.map fun _ => o
          match env.algImpMap o.Algorithm with
          | none => ⟨none, some .ErrInvalidAlgorithm, opt⟩
          | some algImp =>
            match algImp.sign (bytesJoin [hBase64, pBase64] periodBytes)
                secretOrPrivateKey with
            | (_, some err) => ⟨none, some err, opt⟩
            | (signature, none) =>
              let sigBase64 := base64StdEncode signature
              ⟨some (bytesJoin [hBase64, pBase64, sigBase64] periodBytes), none, opt⟩

/-! ## verify.go -/

/-- How a call of `Verify` ends: it returns its three results, or it dereferences a nil
`*VerifyOption` at `opt.Algorithm`. -/
inductive VerifyOutcome where
  | returned (header payload : GoMap) (err : Option Error)
  | nilDereference

/-- The function `Verify`. -/
def Verify (env : Env) (token : Bytes) (secretOrPrivateKey : Option Key)
    (opt : Option VerifyOption) : VerifyOutcome :=
  match env.decode token with
  | (_, _, some err) => .returned none none (some err)
  | (header, payload, none) =>
    match header.lookup "typ" with
    | none => .returned none none (some .ErrInvalidHeaderType)
    | some (.str typStr) =>
      if typStr ≠ "JWT" then .returned none none (some .ErrInvalidHeaderType)
      else
        match opt with
        | none => .nilDereference
        | some opt =>
          match env.algImpMap opt.Algorithm with
          | none => .returned none none (some .ErrInvalidAlgorithm)
          | some algImp =>
            match algImp.verify token secretOrPrivateKey with
            | some err => .returned none none (some err)
            | none => .returned header payload none
    | some _ => .returned none none (some .ErrInvalidHeaderType)

/-! ## A small concrete environment

A toy marshaller, decoder and registry, used to run the definitions on explicit
inputs. -/

/-- A toy signer: the signature is the bytes of the key, and a token is accepted when it
ends in the encoding of that signature. -/
def toyImp : AlgorithmImplementation where
  sign := fun _ key =>
    match key with
    | some (.bytes b) => (b, none)
    | _ => ([], some (.other "invalid key type"))
  verify := fun token key =>
    match key with
    | some (.bytes b) =>
      if (base64StdEncode b).isSuffixOf token then none
      else some (.other "invalid signature")
    | _ => some (.other "invalid key type")

/-- A registry holding `toyImp` under `HS256` only. -/
def toyAlgImpMap : Algorithm → Option AlgorithmImplementation :=
  fun a => if a = HS256 then some toyImp else none

/-- A toy marshaller: a map with a `typ` entry is written as one letter, any other map
as another. -/
def toyMarshal : Entries → Bytes × Option Error :=
  fun m => match m "typ" with
    | some _ => ([104], none)
    | none => ([112], none)

/-- A toy decoder for tokens known to carry header `h` and claims `p`: a token that
starts with the two segments `aA==.cA==.`, the encodings of what `toyMarshal` writes,
decodes to them; any other token is malformed. -/
def toyDecode (h p : GoMap) : Bytes → GoMap × GoMap × Option Error :=
  fun t => if t.take 10 = [97, 65, 61, 61, 46, 99, 65, 61, 61, 46] then (h, p, none)
    else (none, none, some (.other "malformed token"))

/-- The toy environment whose decoder answers with header `h` and claims `p`. -/
def toyEnv (h p : GoMap) : Env where
  now := 1700000000
  jsonMarshal := toyMarshal
  decode := toyDecode h p
  algImpMap := toyAlgImpMap

/-- A key for `toyImp`. -/
def toyKey : Key := .bytes [107]

/-- A caller payload with one entry. -/
def toyPayload : Entries := Entries.empty.set "user" (.str "ann")

/-- The token `aA==.cA==.aw==` that `Sign` makes in the toy environment with `toyKey`. -/
def toyToken : Bytes := [97, 65, 61, 61, 46, 99, 65, 61, 61, 46, 97, 119, 61, 61]

/-- An option that names `HS256` and carries an extension header trying to set `alg`. -/
def spoofOption : SignOption where
  Algorithm := "HS256"
  Header := some ((Entries.empty.set "alg" (.str "spoof")).set "kid" (.str "k1"))

/-- An option asking for a lifetime of minus one second. -/
def expiredOption : SignOption where
  ExpiresIn := -1000000000

/-- An option naming an audience and a subject. -/
def audienceOption : SignOption where
  Audience := "users"
  Subject := "ann"

/-- A verify option that expects another audience and another subject. -/
def strictVerifyOption : VerifyOption where
  Algorithm := HS256
  Audience := "admins"
  Subject := "bob"

/-- A decoded header whose `typ` is not `JWT`. -/
def jwsHeader : Entries := (Entries.empty.set "alg" (.str "HS256")).set "typ" (.str "JWS")

/-! ## The wire format -/

/-- A byte that `base64.StdEncoding` can write: a capital or small letter, a digit, `+`,
`/`, or the padding `=`. -/
def isStdByte (b : Byte) : Bool :=
  (65 ≤ b.val && b.val ≤ 90) || (97 ≤ b.val && b.val ≤ 122) || (48 ≤ b.val && b.val ≤ 57)
    || b.val == 43 || b.val == 47 || b.val == 61

/-- White space among bytes, as `unicode.IsSpace` has it: tab, line feed, vertical tab,
form feed, carriage return, space, and the two Latin-1 spaces. -/
def isSpace (b : Byte) : Bool :=
  b.val == 9 || b.val == 10 || b.val == 11 || b.val == 12 || b.val == 13 || b.val == 32
    || b.val == 133 || b.val == 160

/-- The alphabet of base64url (`base64.URLEncoding`): `-` and `_` stand where the
standard alphabet has `+` and `/`. -/
def encodeURL : String :=
  "ABCDEFGHIJKLMNOPQRSTUVWXYZabcdefghijklmnopqrstuvwxyz0123456789-_"

/-- The byte of the URL-safe alphabet at index `i`. -/
def encodeURLAt (i : Nat) : Byte :=
  Fin.ofNat ((encodeURL.toList.getD i 'A').toNat)

/-- The base64url encoding that the spec names for the segments of a token, written
from its words as the grouping of `base64StdEncode` over the URL-safe alphabet. The
source does not call it; it stands here to be compared with what `Sign` writes. -/
def base64URLEncode : Bytes → Bytes
  | a :: b :: c :: rest =>
    let val := a.val * 65536 + b.val * 256 + c.val
    encodeURLAt (val / 262144 % 64) :: encodeURLAt (val / 4096 % 64) ::
      encodeURLAt (val / 64 % 64) :: encodeURLAt (val % 64) :: base64URLEncode rest
  | [a, b] =>
    let val := a.val * 65536 + b.val * 256
    [encodeURLAt (val / 262144 % 64), encodeURLAt (val / 4096 % 64),
      encodeURLAt (val / 64 % 64), padChar]
  | [a] =>
    let val := a.val * 65536
    [encodeURLAt (val / 262144 % 64), encodeURLAt (val / 4096 % 64), padChar, padChar]
  | [] => []

/-- A key whose bytes encode to `///+` in the standard alphabet. -/
def slashKey : Key := .bytes [255, 255, 254]

/-- The token `aA==.cA==.///+` that `Sign` makes in the toy environment with `slashKey`. -/
def slashToken : Bytes := [97, 65, 61, 61, 46, 99, 65, 61, 61, 46, 47, 47, 47, 43]

/-- An option asking for a lifetime of one hour. -/
def hourOption : SignOption where
  ExpiresIn := 3600000000000

/-- A marshaller that does not write a map with an entry `nan`, as `json.Marshal` does
not write a map that holds a NaN, a channel or a function; any other map goes to
`toyMarshal`. -/
def nanMarshal : Entries → Bytes × Option Error :=
  fun m => match m "nan" with
    | some _ => ([], some (.other "json: unsupported value"))
    | none => toyMarshal m

/-- The toy environment with `nanMarshal` for marshaller. -/
def nanEnv : Env where
  now := 1700000000
  jsonMarshal := nanMarshal
  decode := toyDecode none none
  algImpMap := toyAlgImpMap

/-- An option that names an algorithm absent from the toy registry and whose extension
header has the entry `nan`, standing for a value without a JSON form. -/
def nanOption : SignOption where
  Algorithm := "RS999"
  Header := some (Entries.empty.set "nan" .null)

/-- A key of a type that `toyImp` does not take. -/
def stringKey : Key := .str "k"

/-- A key of the right type that did not sign `toyToken`. -/
def otherKey : Key := .bytes [1]

/-! ## A codec and a recomputing verifier

A marshaller with its decoder and an implementation whose `verify` splits the token and
recomputes the signature, for running the round trip. -/

/-- The index of a byte in the standard alphabet, if it is one of its 64 bytes. -/
def decodeStdAt (b : Byte) : Option Nat :=
  let i := (encodeStd.toList.map fun c => (Fin.ofNat c.toNat : Byte)).indexOf b
  if i < 64 then some i else none

/-- Decoding of `base64.StdEncoding`: groups of four bytes, the last one padded or not. -/
def base64StdDecode : Bytes → Option Bytes
  | [] => some []
  | a :: b :: c :: d :: rest =>
    match decodeStdAt a, decodeStdAt b with
    | some x, some y =>
      if c = padChar ∧ d = padChar ∧ rest = [] then some [Fin.ofNat ((x * 64 + y) / 16)]
      else
        match decodeStdAt c with
        | none => none
        | some z =>
          if d = padChar ∧ rest = [] then
            some [Fin.ofNat (((x * 64 + y) * 64 + z) / 1024),
              Fin.ofNat (((x * 64 + y) * 64 + z) / 4 % 256)]
          else
            match decodeStdAt d, base64StdDecode rest with
            | some w, some tail =>
              some (Fin.ofNat ((((x * 64 + y) * 64 + z) * 64 + w) / 65536)
                :: Fin.ofNat ((((x * 64 + y) * 64 + z) * 64 + w) / 256 % 256)
                :: Fin.ofNat ((((x * 64 + y) * 64 + z) * 64 + w) % 256) :: tail)
            | _, _ => none
    | _, _ => none
  | _ => none

/-- The keys that the codec writes, in its order. -/
def codecKeys : List String := ["alg", "typ", "iat", "user"]

/-- The codec's form of one entry: `0` for an absent key, `1`, a length and the
characters for a string, `2` and eight bytes for a number that is not negative. -/
def codecValue : Option Value → Option Bytes
  | none => some [0]
  | some (.str s) =>
    some ((1 : Byte) :: Fin.ofNat s.length :: s.toList.map fun c => (Fin.ofNat c.toNat : Byte))
  | some (.num n) =>
    if 0 ≤ n then
      some ((2 : Byte) :: (List.range 8).reverse.map fun i =>
        (Fin.ofNat (n.toNat / 256 ^ i) : Byte))
    else none
  | some _ => none

/-- The entries of `m` under the given keys, one after the other. -/
def codecMarshalKeys (m : Entries) : List String → Option Bytes
  | [] => some []
  | key :: ks =>
    match codecValue (m key), codecMarshalKeys m ks with
    | some v, some rest => some (v ++ rest)
    | _, _ => none

/-- The marshaller of the codec. -/
def codecMarshal (m : Entries) : Bytes × Option Error :=
  match codecMarshalKeys m codecKeys with
  | some b => (b, none)
  | none => ([], some (.other "json: unsupported value"))

/-- Reading of one entry: the value, if the key is present, and the bytes left. -/
def codecParseValue : Bytes → Option (Option Value × Bytes)
  | [] => none
  | tag :: rest =>
    if tag = 0 then some (none, rest)
    else if tag = 1 then
      match rest with
      | [] => none
      | len :: body =>
        if len.val ≤ body.length then
          some (some (.str (String.mk ((body.take len.val).map fun b => Char.ofNat b.val))),
            body.drop len.val)
        else none
    else if tag = 2 then
      if 8 ≤ rest.length then
        some (some (.num (Int.ofNat ((rest.take 8).foldl (fun acc b => acc * 256 + b.val) 0))),
          rest.drop 8)
      else none
    else none

/-- Reading of the entries under the given keys into the map `m`. -/
def codecParseKeys : List String → Bytes → Entries → Option Entries
  | [], [], m => some m
  | [], _ :: _, _ => none
  | key :: ks, bs, m =>
    match codecParseValue bs with
    | none => none
    | some (none, rest) => codecParseKeys ks rest m
    | some (some v, rest) => codecParseKeys ks rest (m.set key v)

/-- The decoder of the codec: the token is split at the separator into three segments,
the first two are decoded from base64 and read as maps. -/
def codecDecode (token : Bytes) : GoMap × GoMap × Option Error :=
  match token.splitOn 46 with
  | [h, p, _] =>
    match base64StdDecode h, base64StdDecode p with
    | some hj, some pj =>
      match codecParseKeys codecKeys hj Entries.empty, codecParseKeys codecKeys pj Entries.empty with
      | some hm, some pm => (some hm, some pm, none)
      | _, _ => (none, none, some (.other "malformed token"))
    | _, _ => (none, none, some (.other "malformed token"))
  | _ => (none, none, some (.other "malformed token"))

/-- The signature of the recomputing implementation: one byte, the sum of the bytes of
the input and of the key. -/
def sumSign (input : Bytes) (key : Option Key) : Bytes × Option Error :=
  match key with
  | some (.bytes b) => ([Fin.ofNat ((input ++ b).foldl (fun acc x => acc + x.val) 0)], none)
  | _ => ([], some (.other "invalid key type"))

/-- An implementation whose `verify` splits the token into three segments, signs the
first two again and compares the encoded signature with the third. -/
def sumImp : AlgorithmImplementation where
  sign := sumSign
  verify := fun token key =>
    match token.splitOn 46 with
    | [h, p, s] =>
      match sumSign (bytesJoin [h, p] periodBytes) key with
      | (_, some err) => some err
      | (sig, none) =>
        if base64StdEncode sig = s then none else some (.other "invalid signature")
    | _ => some (.other "malformed token")

/-- The environment of the codec, with `sumImp` registered under `HS256`. -/
def codecEnv : Env where
  now := 1700000000
  jsonMarshal := codecMarshal
  decode := codecDecode
  algImpMap := fun a => if a = HS256 then some sumImp else none

/-- The token that `Sign` makes in `codecEnv` of `toyPayload` with `toyKey` and a nil
option. -/
def codecToken : Bytes :=
  [65, 81, 65, 66, 65, 48, 112, 88, 86, 65, 65, 65, 46, 65, 65, 65, 67, 65, 65, 65, 65, 65,
    71, 86, 84, 56, 81, 65, 66, 65, 50, 70, 117, 98, 103, 61, 61, 46, 117, 81, 61, 61]

/-! ## The maps that `Sign` hands on -/

/-- Modelled from the spec: the source map of `mergo.Map` after the call. The spec has
the merge add to the destination every key of the source that the destination lacks;
the source is read and nothing is written to it. -/
def mergoMapSource (_dst : Entries) (src : GoMap) : GoMap := src

/-- The caller's payload map after `marshalPayload` (lines 90 to 111): the function
assigns to entries of its local `claims` only, and hands `payload` to `mergo.Map` as the
source of the merge at line 106. -/
def marshalPayloadSource (now : Int) (payload : GoMap) (opt : SignOption) : GoMap :=
  let claims : Entries := Entries.empty.set "iat" (.num now)
  let claims := if opt.Issuer ≠ "" then claims.set "iss" (.str opt.Issuer) else claims
  let claims :=
    if opt.ExpiresIn ≠ 0 then claims.set "exp" (.num (opt.ExpiresIn.tdiv 1000000000))
    else claims
  let claims := if opt.Subject ≠ "" then claims.set "sub" (.str opt.Subject) else claims
  let claims := if opt.Audience ≠ "" then claims.set "aud" (.str opt.Audience) else claims
  mergoMapSource claims payload

/-- The map behind `opt.Header` after `marshalHeader` (lines 75 to 88): the function
assigns to its local `h` only, and hands a non-nil `opt.Header` to `mergo.Map` as the
source of the merge at line 82. -/
def marshalHeaderSource (opt : SignOption) : GoMap :=
  let h : Entries := (Entries.empty.set "alg" (.str opt.Algorithm)).set "typ" (.str "JWT")
  match opt.Header with
  | none => none
  | some ext => mergoMapSource h (some ext)

/-- The caller's payload map after `Sign`. `Sign` assigns to no entry of `payload`; it
hands it to `marshalPayload` at line 49, which is reached when both guards are passed
and `marshalHeader` has returned a nil error. -/
def SignPayload (env : Env) (payload : GoMap) (secretOrPrivateKey : Option Key)
    (opt : Option SignOption) : GoMap :=
  match payload with
  | none => payload
  | some _ =>
    match secretOrPrivateKey with
    | none => payload
    | some _ =>
      match marshalHeader env (opt.getD {}) with
      | (_, some _) => payload
      | (_, none) => marshalPayloadSource env.now payload (opt.getD {})

/-! ## Lemmas on the embedding -/

theorem Entries.set_apply (m : Entries) (k : String) (v : Value) (k' : String) :
    m.set k v k' = if k' = k then some v else m k' := rfl

theorem Entries.empty_apply (k : String) : Entries.empty k = none := rfl

theorem headerMap_snd (opt : SignOption) : (headerMap opt).2 = none := by
  unfold headerMap
  cases opt.Header <;> rfl

theorem claimsMap_snd (now : Int) (payload : GoMap) (opt : SignOption) :
    (claimsMap now payload opt).2 = none := rfl

/-- The extension header cannot replace `typ`. -/
theorem headerMap_typ (opt : SignOption) : (headerMap opt).1 "typ" = some (.str "JWT") := by
  unfold headerMap
  rcases opt.Header with _ | ext <;> simp [mergoMap, Entries.set_apply]

/-- The extension header cannot replace `alg`. -/
theorem headerMap_alg (opt : SignOption) :
    (headerMap opt).1 "alg" = some (.str opt.Algorithm) := by
  unfold headerMap
  rcases opt.Header with _ | ext <;> simp [mergoMap, Entries.set_apply]

theorem marshalHeader_eq (env : Env) (opt : SignOption) :
    marshalHeader env opt = env.jsonMarshal (headerMap opt).1 := by
  have h := headerMap_snd opt
  unfold marshalHeader
  rcases hm : headerMap opt with ⟨m, e⟩
  rw [hm] at h
  simp only at h
  subst h
  rfl

theorem marshalPayload_eq (env : Env) (payload : GoMap) (opt : SignOption) :
    marshalPayload env payload opt = env.jsonMarshal (claimsMap env.now payload opt).1 := rfl

/-- When every step of `Sign` succeeds, the token is the three encoded segments joined. -/
theorem Sign_of_steps (env : Env) (p : Entries) (k : Key) (opt : Option SignOption)
    (hj pj sig : Bytes) (imp : AlgorithmImplementation)
    (hh : env.jsonMarshal (headerMap (opt.getD {})).1 = (hj, none))
    (hp : env.jsonMarshal (claimsMap env.now (some p) (opt.getD {})).1 = (pj, none))
    (hi : env.algImpMap
      (if (opt.getD {}).Algorithm = "" then HS256 else (opt.getD {}).Algorithm) = some imp)
    (hs : imp.sign (bytesJoin [base64StdEncode hj, base64StdEncode pj] periodBytes) (some k)
      = (sig, none)) :
    (Sign env (some p) (some k) opt).token
        = some (bytesJoin [base64StdEncode hj, base64StdEncode pj, base64StdEncode sig]
            periodBytes)
      ∧ (Sign env (some p) (some k) opt).err = none := by
  unfold Sign
  simp only [marshalHeader_eq, marshalPayload_eq, hh, hp]
  split_ifs with ha
  · simp only [ha, if_true] at hi
    simp [hi, hs]
  · simp only [ha, if_false] at hi
    simp [hi, hs]

theorem Sign_steps_of_token (env : Env) (p : Entries) (k : Key) (opt : Option SignOption)
    (token : Bytes) (h : (Sign env (some p) (some k) opt).token = some token) :
    ∃ hj pj sig imp,
      env.jsonMarshal (headerMap (opt.getD {})).1 = (hj, none)
      ∧ env.jsonMarshal (claimsMap env.now (some p) (opt.getD {})).1 = (pj, none)
      ∧ env.algImpMap
          (if (opt.getD {}).Algorithm = "" then HS256 else (opt.getD {}).Algorithm) = some imp
      ∧ imp.sign (bytesJoin [base64StdEncode hj, base64StdEncode pj] periodBytes) (some k)
          = (sig, none)
      ∧ token = bytesJoin [base64StdEncode hj, base64StdEncode pj, base64StdEncode sig]
          periodBytes := by
  unfold Sign at h
  simp only [marshalHeader_eq, marshalPayload_eq] at h
  rcases hh : env.jsonMarshal (headerMap (opt.getD {})).1 with ⟨hj, _ | e⟩
  swap
  · rw [hh] at h; simp at h
  rcases hp : env.jsonMarshal (claimsMap env.now (some p) (opt.getD {})).1 with ⟨pj, _ | e⟩
  swap
  · rw [hh, hp] at h; simp at h
  rw [hh, hp] at h
  simp only at h
  have hres : (if (opt.getD {}).Algorithm = "" then
      { opt.getD {} with Algorithm := HS256 } else opt.getD {}).Algorithm
      = (if (opt.getD {}).Algorithm = "" then HS256 else (opt.getD {}).Algorithm) := by
    split_ifs <;> rfl
  rw [hres] at h
  rcases hi : env.algImpMap
      (if (opt.getD {}).Algorithm = "" then HS256 else (opt.getD {}).Algorithm) with _ | imp
  · rw [hi] at h; simp at h
  rw [hi] at h
  simp only at h
  rcases hs : imp.sign (bytesJoin [base64StdEncode hj, base64StdEncode pj] periodBytes)
      (some k) with ⟨sig, _ | e⟩
  swap
  · rw [hs] at h; simp at h
  rw [hs] at h
  simp only [Option.some.injEq] at h
  exact ⟨hj, pj, sig, imp, rfl, rfl, rfl, hs, h.symm⟩


/-- After a header of type `JWT` has been decoded, `Verify` is the lookup of the option's
algorithm followed by that implementation's `verify` on the token. -/
theorem Verify_of_typ_JWT (env : Env) (token : Bytes) (key : Option Key)
    (vopt : VerifyOption) (header payload : GoMap)
    (hdec : env.decode token = (header, payload, none))
    (htyp : header.lookup "typ" = some (.str "JWT")) :
    Verify env token key (some vopt) =
      match env.algImpMap vopt.Algorithm with
      | none => .returned none none (some .ErrInvalidAlgorithm)
      | some imp =>
        match imp.verify token key with
        | some err => .returned none none (some err)
        | none => .returned header payload none := by
  unfold Verify
  rw [hdec]
  simp only [htyp]
  simp

/-- The toy implementation accepts what it signed. -/
theorem toyImp_verify_own (hb pb : Bytes) (key : Option Key) (sig : Bytes)
    (hs : toyImp.sign (bytesJoin [hb, pb] periodBytes) key = (sig, none)) :
    toyImp.verify (bytesJoin [hb, pb, base64StdEncode sig] periodBytes) key = none := by
  rcases key with _ | (s | b | n)
  · simp [toyImp] at hs
  · simp [toyImp] at hs
  · simp only [toyImp, Prod.mk.injEq, and_true] at hs
    subst hs
    simp only [toyImp, bytesJoin, ite_eq_left_iff, Bool.not_eq_true, reduceCtorEq, imp_false,
      Bool.not_eq_false, List.isSuffixOf_iff_suffix]
    intro hn
    exact hn ⟨hb ++ periodBytes ++ (pb ++ periodBytes), by simp⟩
  · simp [toyImp] at hs

/-! ## The claims -/

/-- The codec reads the segments of `codecToken` back as the two maps that were written. -/
theorem codecDecode_codecToken :
    codecDecode codecToken
      = (some (headerMap {}).1, some (claimsMap 1700000000 (some toyPayload) {}).1, none) := by
  have hd : codecDecode codecToken
      = (some ((Entries.empty.set "alg" (.str "")).set "typ" (.str "JWT")),
          some ((Entries.empty.set "iat" (.num 1700000000)).set "user" (.str "ann")),
          none) := by
    rfl
  have hc : (Entries.empty.set "iat" (.num 1700000000)).set "user" (.str "ann")
      = (claimsMap 1700000000 (some toyPayload) {}).1 := by
    funext key
    simp only [claimsMap, mergoMap]
    by_cases h1 : key = "user"
    · subst h1
      simp [Entries.set_apply, Entries.empty_apply, GoMap.lookup, toyPayload]
    · by_cases h2 : key = "iat"
      · subst h2
        simp [Entries.set_apply]
      · simp [Entries.set_apply, Entries.empty_apply, GoMap.lookup, toyPayload, h1, h2]
  rw [hd, hc]
  rfl

/-- C1: round trip. For a non-nil claims map `p`, a non-nil key `k` and any `SignOption`
(nil included), when `Sign` returns a token, `Verify` of that token under the same key
and the algorithm `Sign` used (`HS256` when the option leaves it empty) returns, with a
nil error, the header map and the merged claims map that `Sign` marshalled. Assumed, of
the token that `Sign` assembles from the two marshalled maps and the signature of the
resolved implementation: `decode` gives back the two maps, and that implementation's
`verify` accepts it under the same key. -/
theorem Sign_Verify_round_trip (env : Env) (p : Entries) (k : Key)
    (opt : Option SignOption) (vopt : VerifyOption) (token : Bytes)
    (hsign : (Sign env (some p) (some k) opt).token = some token)
    (halg : vopt.Algorithm
      = if (opt.getD {}).Algorithm = "" then HS256 else (opt.getD {}).Algorithm)
    (hdec : ∀ hj pj sig imp,
      env.jsonMarshal (headerMap (opt.getD {})).1 = (hj, none) →
      env.jsonMarshal (claimsMap env.now (some p) (opt.getD {})).1 = (pj, none) →
      env.algImpMap
        (if (opt.getD {}).Algorithm = "" then HS256 else (opt.getD {}).Algorithm)
          = some imp →
      imp.sign (bytesJoin [base64StdEncode hj, base64StdEncode pj] periodBytes) (some k)
        = (sig, none) →
      env.decode
          (bytesJoin [base64StdEncode hj, base64StdEncode pj, base64StdEncode sig] periodBytes)
        = (some (headerMap (opt.getD {})).1,
            some (claimsMap env.now (some p) (opt.getD {})).1, none))
    (hown : ∀ hj pj sig imp,
      env.jsonMarshal (headerMap (opt.getD {})).1 = (hj, none) →
      env.jsonMarshal (claimsMap env.now (some p) (opt.getD {})).1 = (pj, none) →
      env.algImpMap
        (if (opt.getD {}).Algorithm = "" then HS256 else (opt.getD {}).Algorithm)
          = some imp →
      imp.sign (bytesJoin [base64StdEncode hj, base64StdEncode pj] periodBytes) (some k)
        = (sig, none) →
      imp.verify
          (bytesJoin [base64StdEncode hj, base64StdEncode pj, base64StdEncode sig] periodBytes)
          (some k) = none) :
    Verify env token (some k) (some vopt)
      = .returned (some (headerMap (opt.getD {})).1)
          (some (claimsMap env.now (some p) (opt.getD {})).1) none := by
  obtain ⟨hj, pj, sig, imp, hh, hp, hi, hs, rfl⟩ := Sign_steps_of_token env p k opt token hsign
  have htyp : GoMap.lookup (some (headerMap (opt.getD {})).1) "typ" = some (.str "JWT") :=
    headerMap_typ (opt.getD {})
  rw [Verify_of_typ_JWT env _ (some k) vopt _ _ (hdec hj pj sig imp hh hp hi hs) htyp,
    halg, hi]
  simp only [hown hj pj sig imp hh hp hi hs]

/-- The round trip of C1 run in `codecEnv`, with a nil `SignOption`: the decoder splits
the token, decodes the first two segments and reads the maps back, and the
implementation splits the token and signs the first two segments again. -/
theorem Sign_Verify_round_trip_witness :
    (Sign codecEnv (some toyPayload) (some toyKey) none).token = some codecToken
      ∧ Verify codecEnv codecToken (some toyKey) (some { Algorithm := HS256 })
        = .returned (some (headerMap {}).1)
            (some (claimsMap 1700000000 (some toyPayload) {}).1) none :=
  ⟨by decide,
    Sign_Verify_round_trip codecEnv toyPayload toyKey none { Algorithm := HS256 }
      codecToken (by decide) (by decide)
      (by
        intro hj pj sig imp hh hp hi hs
        have eh : codecMarshal (headerMap {}).1 = ([1, 0, 1, 3, 74, 87, 84, 0, 0], none) := by
          decide
        have ep : codecMarshal (claimsMap 1700000000 (some toyPayload) {}).1
            = ([0, 0, 2, 0, 0, 0, 0, 101, 83, 241, 0, 1, 3, 97, 110, 110], none) := by
          decide
        have ehj := eh.symm.trans hh
        have epj := ep.symm.trans hp
        simp only [Prod.mk.injEq, and_true] at ehj epj
        subst ehj epj
        have himp : sumImp = imp := Option.some.inj hi
        subst himp
        have es : sumImp.sign (bytesJoin [base64StdEncode [1, 0, 1, 3, 74, 87, 84, 0, 0],
            base64StdEncode [0, 0, 2, 0, 0, 0, 0, 101, 83, 241, 0, 1, 3, 97, 110, 110]]
              periodBytes) (some toyKey) = ([185], none) := by
          decide
        have esig := es.symm.trans hs
        simp only [Prod.mk.injEq, and_true] at esig
        subst esig
        exact codecDecode_codecToken)
      (by
        intro hj pj sig imp hh hp hi hs
        have eh : codecMarshal (headerMap {}).1 = ([1, 0, 1, 3, 74, 87, 84, 0, 0], none) := by
          decide
        have ep : codecMarshal (claimsMap 1700000000 (some toyPayload) {}).1
            = ([0, 0, 2, 0, 0, 0, 0, 101, 83, 241, 0, 1, 3, 97, 110, 110], none) := by
          decide
        have ehj := eh.symm.trans hh
        have epj := ep.symm.trans hp
        simp only [Prod.mk.injEq, and_true] at ehj epj
        subst ehj epj
        have himp : sumImp = imp := Option.some.inj hi
        subst himp
        have es : sumImp.sign (bytesJoin [base64StdEncode [1, 0, 1, 3, 74, 87, 84, 0, 0],
            base64StdEncode [0, 0, 2, 0, 0, 0, 0, 101, 83, 241, 0, 1, 3, 97, 110, 110]]
              periodBytes) (some toyKey) = ([185], none) := by
          decide
        have esig := es.symm.trans hs
        simp only [Prod.mk.injEq, and_true] at esig
        subst esig
        have hv : sumImp.verify codecToken (some toyKey) = none := by decide
        exact hv)⟩

/-- C2: claim precedence. Whatever the caller payload holds, the claims map that
`marshalPayload` marshals has `iat` equal to the clock, `iss`, `sub` and `aud` equal to
the configured `Issuer`, `Subject` and `Audience` when these are set, and `exp` equal to
the value computed from `ExpiresIn` when that is nonzero. -/
theorem marshalPayload_configured_claims_win (env : Env) (payload : GoMap)
    (opt : SignOption) :
    marshalPayload env payload opt = env.jsonMarshal (claimsMap env.now payload opt).1
      ∧ (claimsMap env.now payload opt).1 "iat" = some (.num env.now)
      ∧ (opt.Issuer ≠ "" →
          (claimsMap env.now payload opt).1 "iss" = some (.str opt.Issuer))
      ∧ (opt.Subject ≠ "" →
          (claimsMap env.now payload opt).1 "sub" = some (.str opt.Subject))
      ∧ (opt.Audience ≠ "" →
          (claimsMap env.now payload opt).1 "aud" = some (.str opt.Audience))
      ∧ (opt.ExpiresIn ≠ 0 →
          (claimsMap env.now payload opt).1 "exp"
            = some (.num (opt.ExpiresIn.tdiv 1000000000))) := by
  refine ⟨marshalPayload_eq env payload opt, ?_, ?_, ?_, ?_, ?_⟩
  · simp only [claimsMap, mergoMap]
    split_ifs <;> simp [Entries.set_apply, Entries.empty_apply]
  · intro h
    simp only [claimsMap, mergoMap]
    split_ifs <;> simp [Entries.set_apply, Entries.empty_apply]
  · intro h
    simp only [claimsMap, mergoMap]
    split_ifs <;> simp [Entries.set_apply, Entries.empty_apply]
  · intro h
    simp only [claimsMap, mergoMap]
    split_ifs <;> simp [Entries.set_apply, Entries.empty_apply]
  · intro h
    simp only [claimsMap, mergoMap]
    split_ifs <;> simp [Entries.set_apply, Entries.empty_apply]

/-- The precedence of C2 on the payload `iss = caller` signed with `Issuer = official`. -/
theorem marshalPayload_configured_claims_win_witness :
    (claimsMap (toyEnv none none).now (some (Entries.empty.set "iss" (.str "caller")))
        { Issuer := "official" }).1 "iss" = some (.str "official") :=
  (marshalPayload_configured_claims_win (toyEnv none none)
    (some (Entries.empty.set "iss" (.str "caller"))) { Issuer := "official" }).2.2.1
    (by decide)

/-- C3: header lock. The header map that `marshalHeader` marshals has exactly the keys
`alg`, `typ` and those of the extension header; its `typ` is `JWT` and its `alg` is the
option's `Algorithm` whatever the extension header holds under these two keys; every
other key carries the extension header's value. -/
theorem marshalHeader_header_lock (env : Env) (opt : SignOption) :
    marshalHeader env opt = env.jsonMarshal (headerMap opt).1
      ∧ (∀ key, ((headerMap opt).1 key).isSome
          ↔ key = "alg" ∨ key = "typ" ∨ (opt.Header.lookup key).isSome)
      ∧ (headerMap opt).1 "typ" = some (.str "JWT")
      ∧ (headerMap opt).1 "alg" = some (.str opt.Algorithm)
      ∧ (∀ key, key ≠ "alg" → key ≠ "typ" → (headerMap opt).1 key = opt.Header.lookup key) := by
  refine ⟨marshalHeader_eq env opt, ?_, ?_, ?_, ?_⟩
  · intro key
    unfold headerMap
    rcases opt.Header with _ | ext
    · by_cases h1 : key = "typ" <;> by_cases h2 : key = "alg" <;>
        simp [GoMap.lookup, Entries.set, Entries.empty, h1, h2]
    · by_cases h1 : key = "typ" <;> by_cases h2 : key = "alg" <;>
        simp [GoMap.lookup, mergoMap, Entries.set, Entries.empty, h1, h2]
  · exact headerMap_typ opt
  · exact headerMap_alg opt
  · intro key h1 h2
    unfold headerMap
    rcases opt.Header with _ | ext <;>
      simp [GoMap.lookup, mergoMap, Entries.set, Entries.empty, h1, h2]

/-- The lock of C3 on an extension header that tries to set `alg`. -/
theorem marshalHeader_header_lock_witness :
    (headerMap spoofOption).1 "kid" = spoofOption.Header.lookup "kid" :=
  (marshalHeader_header_lock (toyEnv none none) spoofOption).2.2.2.2 "kid"
    (by decide) (by decide)

/-- C4: on the code the header `alg` is not the algorithm used when the option leaves
`Algorithm` empty. Every token that `Sign` returns for such an option (nil included) has
as first segment the encoding of a header map whose `alg` is the empty string, while the
signature in its last segment was made by the implementation registered under `HS256`. -/
theorem Sign_unset_algorithm_header_alg (env : Env) (p : Entries) (k : Key)
    (opt : Option SignOption) (token : Bytes)
    (hunset : (opt.getD {}).Algorithm = "")
    (hsign : (Sign env (some p) (some k) opt).token = some token) :
    ∃ hj pj sig imp,
      env.jsonMarshal (headerMap (opt.getD {})).1 = (hj, none)
      ∧ (headerMap (opt.getD {})).1 "alg" = some (.str "")
      ∧ env.algImpMap HS256 = some imp
      ∧ imp.sign (bytesJoin [base64StdEncode hj, base64StdEncode pj] periodBytes) (some k)
          = (sig, none)
      ∧ token = bytesJoin [base64StdEncode hj, base64StdEncode pj, base64StdEncode sig]
          periodBytes := by
  obtain ⟨hj, pj, sig, imp, hh, -, hi, hs, ht⟩ := Sign_steps_of_token env p k opt token hsign
  rw [if_pos hunset] at hi
  refine ⟨hj, pj, sig, imp, hh, ?_, hi, hs, ht⟩
  have halg := headerMap_alg (opt.getD {})
  rw [hunset] at halg
  exact halg

/-- The run of C4 in the toy environment: `Sign` with a nil option. -/
theorem Sign_unset_algorithm_header_alg_witness :
    ∃ hj pj sig imp,
      (toyEnv none none).jsonMarshal (headerMap {}).1 = (hj, none)
      ∧ (headerMap {}).1 "alg" = some (.str "")
      ∧ (toyEnv none none).algImpMap HS256 = some imp
      ∧ imp.sign (bytesJoin [base64StdEncode hj, base64StdEncode pj] periodBytes)
          (some toyKey) = (sig, none)
      ∧ toyToken = bytesJoin [base64StdEncode hj, base64StdEncode pj, base64StdEncode sig]
          periodBytes :=
  Sign_unset_algorithm_header_alg (toyEnv none none) toyPayload toyKey none toyToken rfl
    (by decide)

/-- C5: empty-input rejection. `Sign` with a nil payload returns no token and
`ErrEmptyPayload`; with a payload and a nil key it returns no token and
`ErrEmptySecretOrPrivateKey`; in both cases the caller's option is left as it was and
the outcome is the same in every environment, so no marshaller, clock or algorithm
implementation has a part in it. -/
theorem Sign_rejects_nil_inputs (env env' : Env) (p : Entries) (key : Option Key)
    (opt : Option SignOption) :
    Sign env none key opt = ⟨none, some .ErrEmptyPayload, opt⟩
      ∧ Sign env (some p) none opt = ⟨none, some .ErrEmptySecretOrPrivateKey, opt⟩
      ∧ Sign env none key opt = Sign env' none key opt
      ∧ Sign env (some p) none opt = Sign env' (some p) none opt :=
  ⟨rfl, rfl, rfl, rfl⟩

/-- C6, on the code: `Sign` with a claims map that has no entries but is not nil, run in
the toy environment, returns a token and a nil error, not `ErrEmptyPayload`. -/
theorem Sign_empty_payload_counterexample :
    (Sign (toyEnv none none) (some Entries.empty) (some toyKey) none).token = some toyToken
      ∧ (Sign (toyEnv none none) (some Entries.empty) (some toyKey) none).err = none
      ∧ ¬ ((Sign (toyEnv none none) (some Entries.empty) (some toyKey) none).token = none
          ∧ (Sign (toyEnv none none) (some Entries.empty) (some toyKey) none).err
            = some .ErrEmptyPayload) := by
  decide

/-- C6 as amended: a claims map that has no entries but is not nil passes the payload
guard of `Sign`. With a nil key `Sign` returns no token and `ErrEmptySecretOrPrivateKey`;
with a non-nil key, when both maps marshal, the algorithm is registered and its `sign`
succeeds, `Sign` returns the joined token and a nil error. -/
theorem Sign_empty_payload_accepted (env : Env) (k : Key) (opt : Option SignOption)
    (hj pj sig : Bytes) (imp : AlgorithmImplementation)
    (hh : env.jsonMarshal (headerMap (opt.getD {})).1 = (hj, none))
    (hp : env.jsonMarshal (claimsMap env.now (some Entries.empty) (opt.getD {})).1
      = (pj, none))
    (hi : env.algImpMap
      (if (opt.getD {}).Algorithm = "" then HS256 else (opt.getD {}).Algorithm) = some imp)
    (hs : imp.sign (bytesJoin [base64StdEncode hj, base64StdEncode pj] periodBytes) (some k)
      = (sig, none)) :
    Sign env (some Entries.empty) none opt = ⟨none, some .ErrEmptySecretOrPrivateKey, opt⟩
      ∧ (Sign env (some Entries.empty) (some k) opt).token
        = some (bytesJoin [base64StdEncode hj, base64StdEncode pj, base64StdEncode sig]
            periodBytes)
      ∧ (Sign env (some Entries.empty) (some k) opt).err = none :=
  ⟨rfl, Sign_of_steps env Entries.empty k opt hj pj sig imp hh hp hi hs⟩

/-- The amended C6 run in the toy environment. -/
theorem Sign_empty_payload_accepted_witness :
    Sign (toyEnv none none) (some Entries.empty) none none
        = ⟨none, some .ErrEmptySecretOrPrivateKey, none⟩
      ∧ (Sign (toyEnv none none) (some Entries.empty) (some toyKey) none).token
        = some (bytesJoin [base64StdEncode [104], base64StdEncode [112],
            base64StdEncode [107]] periodBytes)
      ∧ (Sign (toyEnv none none) (some Entries.empty) (some toyKey) none).err = none :=
  Sign_empty_payload_accepted (toyEnv none none) toyKey none [104] [112] [107] toyImp
    rfl rfl rfl rfl

/-- C7, on the code: `Verify` has no expiry check. A token that decodes, has header type
`JWT` and passes the signature check is returned with its header and claims and a nil
error also when its claims hold `exp`, `IngoreExpiration` is false and the time `now` is
past `exp + clockTolerance`. -/
theorem Verify_accepts_expired (env : Env) (token : Bytes) (key : Option Key)
    (vopt : VerifyOption) (header payload : GoMap) (imp : AlgorithmImplementation)
    (now exp : Int)
    (hdec : env.decode token = (header, payload, none))
    (htyp : header.lookup "typ" = some (.str "JWT"))
    (hi : env.algImpMap vopt.Algorithm = some imp)
    (hv : imp.verify token key = none)
    (_hexp : payload.lookup "exp" = some (.num exp))
    (_hig : vopt.IngoreExpiration = false)
    (_hlate : now > exp + vopt.clockTolerance) :
    Verify env token key (some vopt) = .returned header payload none := by
  rw [Verify_of_typ_JWT env token key vopt header payload hdec htyp, hi]
  simp only [hv]

/-- The run of C7 in the toy environment: the token signed with `ExpiresIn` of minus one
second, whose `exp` is `-1`, is verified at time `1700000000`. -/
theorem Verify_accepts_expired_witness :
    (Sign (toyEnv (some (headerMap expiredOption).1)
            (some (claimsMap 1700000000 (some toyPayload) expiredOption).1))
          (some toyPayload) (some toyKey) (some expiredOption)).token = some toyToken
      ∧ Verify (toyEnv (some (headerMap expiredOption).1)
            (some (claimsMap 1700000000 (some toyPayload) expiredOption).1))
          toyToken (some toyKey) (some { Algorithm := HS256 })
        = .returned (some (headerMap expiredOption).1)
            (some (claimsMap 1700000000 (some toyPayload) expiredOption).1) none :=
  ⟨by decide,
    Verify_accepts_expired
      (toyEnv (some (headerMap expiredOption).1)
        (some (claimsMap 1700000000 (some toyPayload) expiredOption).1))
      toyToken (some toyKey) { Algorithm := HS256 } _ _ toyImp 1700000000 (-1)
      rfl rfl rfl (by decide) rfl rfl (by decide)⟩

/-- C8, on the code: `Verify` compares neither `aud` nor `sub`. A token that decodes, has
header type `JWT` and passes the signature check is returned with its header and claims
and a nil error also when the option names an audience that its `aud` differs from, or a
subject that its `sub` differs from. -/
theorem Verify_accepts_mismatch (env : Env) (token : Bytes) (key : Option Key)
    (vopt : VerifyOption) (header payload : GoMap) (imp : AlgorithmImplementation)
    (hdec : env.decode token = (header, payload, none))
    (htyp : header.lookup "typ" = some (.str "JWT"))
    (hi : env.algImpMap vopt.Algorithm = some imp)
    (hv : imp.verify token key = none)
    (_hmis : (vopt.Audience ≠ "" ∧ payload.lookup "aud" ≠ some (.str vopt.Audience))
      ∨ (vopt.Subject ≠ "" ∧ payload.lookup "sub" ≠ some (.str vopt.Subject))) :
    Verify env token key (some vopt) = .returned header payload none := by
  rw [Verify_of_typ_JWT env token key vopt header payload hdec htyp, hi]
  simp only [hv]

/-- The run of C8 in the toy environment: a token signed for audience `users` and
subject `ann` is verified with an option expecting `admins` and `bob`. -/
theorem Verify_accepts_mismatch_witness :
    (Sign (toyEnv (some (headerMap audienceOption).1)
            (some (claimsMap 1700000000 (some toyPayload) audienceOption).1))
          (some toyPayload) (some toyKey) (some audienceOption)).token = some toyToken
      ∧ Verify (toyEnv (some (headerMap audienceOption).1)
            (some (claimsMap 1700000000 (some toyPayload) audienceOption).1))
          toyToken (some toyKey) (some strictVerifyOption)
        = .returned (some (headerMap audienceOption).1)
            (some (claimsMap 1700000000 (some toyPayload) audienceOption).1) none :=
  ⟨by decide,
    Verify_accepts_mismatch
      (toyEnv (some (headerMap audienceOption).1)
        (some (claimsMap 1700000000 (some toyPayload) audienceOption).1))
      toyToken (some toyKey) strictVerifyOption _ _ toyImp
      rfl rfl rfl (by decide)
      (Or.inl ⟨by decide, by
        simp [GoMap.lookup, claimsMap, mergoMap, audienceOption, strictVerifyOption,
          Entries.set_apply]⟩)⟩

/-- C9: no algorithm confusion. For a token that decodes with header type `JWT`, `Verify`
under a non-nil option is decided by the option's `Algorithm` and nothing of the header:
it returns `ErrInvalidAlgorithm` when that identifier is not registered, and otherwise it
returns what the implementation registered under it makes of `verify` on the whole token
and the key, so that it returns a nil error exactly when that implementation accepts.
The outcome is the same for any second token, whatever its header holds under `alg`. -/
theorem Verify_dispatch_by_option (env : Env) (token : Bytes) (key : Option Key)
    (vopt : VerifyOption) (header payload : GoMap)
    (hdec : env.decode token = (header, payload, none))
    (htyp : header.lookup "typ" = some (.str "JWT")) :
    (env.algImpMap vopt.Algorithm = none →
        Verify env token key (some vopt) = .returned none none (some .ErrInvalidAlgorithm))
      ∧ (∀ imp, env.algImpMap vopt.Algorithm = some imp →
          (Verify env token key (some vopt) =
              match imp.verify token key with
              | some err => .returned none none (some err)
              | none => .returned header payload none)
            ∧ ((∃ h p, Verify env token key (some vopt) = .returned h p none)
                ↔ imp.verify token key = none))
      ∧ (∀ token' header' payload', env.decode token' = (header', payload', none) →
          header'.lookup "typ" = some (.str "JWT") →
          Verify env token' key (some vopt) =
            match env.algImpMap vopt.Algorithm with
            | none => .returned none none (some .ErrInvalidAlgorithm)
            | some imp =>
              match imp.verify token' key with
              | some err => .returned none none (some err)
              | none => .returned header' payload' none) := by
  have hV := Verify_of_typ_JWT env token key vopt header payload hdec htyp
  refine ⟨?_, ?_, ?_⟩
  · intro hn
    rw [hV, hn]
  · intro imp hi
    rw [hV, hi]
    refine ⟨rfl, ?_⟩
    simp only
    rcases hver : imp.verify token key with _ | err
    · exact ⟨fun _ => rfl, fun _ => ⟨header, payload, rfl⟩⟩
    · constructor
      · rintro ⟨h, p, hh⟩
        simp at hh
      · intro hc
        cases hc
  · intro token' header' payload' hdec' htyp'
    exact Verify_of_typ_JWT env token' key vopt header' payload' hdec' htyp'

/-- The dispatch of C9 in the toy environment: the decoded header names no algorithm in
`alg` that is registered, the option names `HS256`, and the token is accepted. -/
theorem Verify_dispatch_by_option_witness :
    (∃ h p, Verify (toyEnv (some (headerMap {}).1) none) toyToken (some toyKey)
        (some { Algorithm := HS256 }) = .returned h p none)
      ↔ toyImp.verify toyToken (some toyKey) = none :=
  ((Verify_dispatch_by_option (toyEnv (some (headerMap {}).1) none) toyToken (some toyKey)
    { Algorithm := HS256 } (some (headerMap {}).1) none rfl rfl).2.1 toyImp rfl).2

/-- C10: header-type check. For a token that `decode` accepts with header `header`,
`Verify` returns `ErrInvalidHeaderType` exactly when the header has no `typ`, or its `typ`
is not a string, or it is a string other than `JWT`; in these cases it does so with nil
header and claims for every key, every option (nil included) and every registry, so the
check comes before the algorithm lookup and no implementation is consulted. For the
converse no registered `verify` is taken to return `ErrInvalidHeaderType` itself. -/
theorem Verify_header_type_check (env : Env) (token : Bytes) (key : Option Key)
    (opt : Option VerifyOption) (header payload : GoMap)
    (hdec : env.decode token = (header, payload, none))
    (hreg : ∀ a imp t k, env.algImpMap a = some imp →
      imp.verify t k ≠ some .ErrInvalidHeaderType) :
    ((∃ h p, Verify env token key opt = .returned h p (some .ErrInvalidHeaderType))
        ↔ (header.lookup "typ" = none
          ∨ (∃ v, header.lookup "typ" = some v ∧ ∀ s, v ≠ .str s)
          ∨ (∃ s, header.lookup "typ" = some (.str s) ∧ s ≠ "JWT")))
      ∧ ((header.lookup "typ" = none
          ∨ (∃ v, header.lookup "typ" = some v ∧ ∀ s, v ≠ .str s)
          ∨ (∃ s, header.lookup "typ" = some (.str s) ∧ s ≠ "JWT")) →
        ∀ reg key' opt',
          Verify { env with algImpMap := reg } token key' opt'
            = .returned none none (some .ErrInvalidHeaderType)) := by
  have hbad : (header.lookup "typ" = none
        ∨ (∃ v, header.lookup "typ" = some v ∧ ∀ s, v ≠ .str s)
        ∨ (∃ s, header.lookup "typ" = some (.str s) ∧ s ≠ "JWT")) →
      ∀ (e : Env) key' opt', e.decode token = (header, payload, none) →
        Verify e token key' opt' = .returned none none (some .ErrInvalidHeaderType) := by
    intro hb e key' opt' hd
    unfold Verify
    rw [hd]
    simp only
    rcases hb with h | ⟨v, h, hv⟩ | ⟨s, h, hs⟩
    · simp only [h]
    · rw [h]
      cases v with
      | str s => exact absurd rfl (hv s)
      | null => rfl
      | bool b => rfl
      | num n => rfl
      | arr l => rfl
      | obj l => rfl
    · simp only [h]
      rw [if_pos hs]
  refine ⟨⟨?_, ?_⟩, ?_⟩
  · rintro ⟨h, p, hver⟩
    by_contra hgood
    have htyp : header.lookup "typ" = some (.str "JWT") := by
      rcases hl : header.lookup "typ" with _ | v
      · exact absurd (Or.inl hl) hgood
      · cases v with
        | str s =>
          by_cases hs : s = "JWT"
          · rw [hs]
          · exact absurd (Or.inr (Or.inr ⟨s, hl, hs⟩)) hgood
        | null => exact absurd (Or.inr (Or.inl ⟨_, hl, fun s => by simp⟩)) hgood
        | bool b => exact absurd (Or.inr (Or.inl ⟨_, hl, fun s => by simp⟩)) hgood
        | num n => exact absurd (Or.inr (Or.inl ⟨_, hl, fun s => by simp⟩)) hgood
        | arr l => exact absurd (Or.inr (Or.inl ⟨_, hl, fun s => by simp⟩)) hgood
        | obj l => exact absurd (Or.inr (Or.inl ⟨_, hl, fun s => by simp⟩)) hgood
    rcases opt with _ | vopt
    · unfold Verify at hver
      rw [hdec] at hver
      simp [htyp] at hver
    · rw [Verify_of_typ_JWT env token key vopt header payload hdec htyp] at hver
      rcases hi : env.algImpMap vopt.Algorithm with _ | imp
      · rw [hi] at hver
        simp at hver
      · rw [hi] at hver
        simp only at hver
        rcases hv : imp.verify token key with _ | err
        · rw [hv] at hver
          simp at hver
        · rw [hv] at hver
          simp only [VerifyOutcome.returned.injEq, Option.some.injEq] at hver
          exact hreg _ imp token key hi (hv.trans (congrArg some hver.2.2))
  · intro hb
    exact ⟨none, none, hbad hb env key opt hdec⟩
  · intro hb reg key' opt'
    exact hbad hb { env with algImpMap := reg } key' opt' hdec

/-- The check of C10 in the toy environment: a decoded header of type `JWS`, a nil option
and an empty registry still give `ErrInvalidHeaderType`. -/
theorem Verify_header_type_check_witness :
    Verify { toyEnv (some jwsHeader) none with algImpMap := fun _ => none } toyToken none none
      = .returned none none (some .ErrInvalidHeaderType) :=
  (Verify_header_type_check (toyEnv (some jwsHeader) none) toyToken (some toyKey)
    (some { Algorithm := HS256 }) (some jwsHeader) none rfl
    (by
      intro a imp t k hi
      have himp : imp = toyImp := by
        simp only [toyEnv, toyAlgImpMap] at hi
        split_ifs at hi
        exact (Option.some.inj hi).symm
      subst himp
      rcases k with _ | (s | b | n)
      · simp [toyImp]
      · simp [toyImp]
      · simp only [toyImp]
        split_ifs <;> simp
      · simp [toyImp])).2
    (Or.inr (Or.inr ⟨"JWS", rfl, by decide⟩)) (fun _ => none) none none

/-! ## Lemmas on the wire format -/

theorem encodeStdAt_isStdByte (n : Nat) : isStdByte (encodeStdAt (n % 64)) = true := by
  have h : ∀ i : Fin 64, isStdByte (encodeStdAt i.val) = true := by decide
  exact h ⟨n % 64, Nat.mod_lt _ (by norm_num)⟩

theorem padChar_isStdByte : isStdByte padChar = true := by decide

/-- Every byte that `base64StdEncode` writes is of the standard alphabet or the padding. -/
theorem base64StdEncode_isStdByte :
    ∀ (x : Bytes) (b : Byte), b ∈ base64StdEncode x → isStdByte b = true
  | [], b, h => by simp [base64StdEncode] at h
  | [a], b, h => by
    simp only [base64StdEncode, List.mem_cons, List.mem_singleton, List.not_mem_nil,
      or_false] at h
    rcases h with rfl | rfl | rfl | rfl
    · exact encodeStdAt_isStdByte _
    · exact encodeStdAt_isStdByte _
    · exact padChar_isStdByte
    · exact padChar_isStdByte
  | [a, c], b, h => by
    simp only [base64StdEncode, List.mem_cons, List.mem_singleton, List.not_mem_nil,
      or_false] at h
    rcases h with rfl | rfl | rfl | rfl
    · exact encodeStdAt_isStdByte _
    · exact encodeStdAt_isStdByte _
    · exact encodeStdAt_isStdByte _
    · exact padChar_isStdByte
  | a :: c :: d :: rest, b, h => by
    simp only [base64StdEncode, List.mem_cons] at h
    rcases h with rfl | rfl | rfl | rfl | h
    · exact encodeStdAt_isStdByte _
    · exact encodeStdAt_isStdByte _
    · exact encodeStdAt_isStdByte _
    · exact encodeStdAt_isStdByte _
    · exact base64StdEncode_isStdByte rest b h

set_option maxRecDepth 100000 in
/-- A byte of the standard alphabet is neither the separator nor white space. -/
theorem isStdByte_not_separator :
    ∀ b : Byte, isStdByte b = true → b ≠ 46 ∧ isSpace b = false := by
  decide

/-- No encoded segment holds the separator. -/
theorem period_not_mem_base64StdEncode (x : Bytes) : (46 : Byte) ∉ base64StdEncode x :=
  fun h => (isStdByte_not_separator 46 (base64StdEncode_isStdByte x 46 h)).1 rfl

theorem bytesJoin_three (a b c sep : Bytes) :
    bytesJoin [a, b, c] sep = a ++ sep ++ (b ++ sep ++ c) := rfl

theorem bytesJoin_two (a b sep : Bytes) : bytesJoin [a, b] sep = a ++ sep ++ b := rfl

/-- A token is returned only for a non-nil payload and a non-nil key, after every step of
`Sign` has succeeded. -/
theorem Sign_success (env : Env) (payload : GoMap) (key : Option Key)
    (opt : Option SignOption) (token : Bytes)
    (h : (Sign env payload key opt).token = some token) :
    ∃ hj pj sig imp,
      marshalHeader env (opt.getD {}) = (hj, none)
      ∧ marshalPayload env payload (opt.getD {}) = (pj, none)
      ∧ env.algImpMap
          (if (opt.getD {}).Algorithm = "" then HS256 else (opt.getD {}).Algorithm) = some imp
      ∧ imp.sign (bytesJoin [base64StdEncode hj, base64StdEncode pj] periodBytes) key
          = (sig, none)
      ∧ token = bytesJoin [base64StdEncode hj, base64StdEncode pj, base64StdEncode sig]
          periodBytes := by
  rcases payload with _ | p
  · simp [Sign] at h
  rcases key with _ | k
  · simp [Sign] at h
  obtain ⟨hj, pj, sig, imp, hh, hp, hi, hs, ht⟩ := Sign_steps_of_token env p k opt token h
  exact ⟨hj, pj, sig, imp, (marshalHeader_eq env _).trans hh,
    (marshalPayload_eq env _ _).trans hp, hi, hs, ht⟩

/-! ## The claims on the token -/

/-- C11: token assembly. Every token that `Sign` returns is `H . P . S`: `H` encodes the
header JSON, `P` the claims JSON, and `S` the signature that the resolved implementation
made of `H . P` with the key. The signing input is what stands before the last
separator of the token, since `S` holds no separator. -/
theorem Sign_token_assembly (env : Env) (payload : GoMap) (key : Option Key)
    (opt : Option SignOption) (token : Bytes)
    (hsign : (Sign env payload key opt).token = some token) :
    ∃ hj pj sig imp,
      marshalHeader env (opt.getD {}) = (hj, none)
      ∧ marshalPayload env payload (opt.getD {}) = (pj, none)
      ∧ env.algImpMap
          (if (opt.getD {}).Algorithm = "" then HS256 else (opt.getD {}).Algorithm) = some imp
      ∧ imp.sign (base64StdEncode hj ++ periodBytes ++ base64StdEncode pj) key = (sig, none)
      ∧ token = base64StdEncode hj ++ periodBytes ++ base64StdEncode pj ++ periodBytes
          ++ base64StdEncode sig
      ∧ (46 : Byte) ∉ base64StdEncode sig := by
  obtain ⟨hj, pj, sig, imp, hh, hp, hi, hs, ht⟩ := Sign_success env payload key opt token hsign
  refine ⟨hj, pj, sig, imp, hh, hp, hi, ?_, ?_, period_not_mem_base64StdEncode sig⟩
  · rw [← bytesJoin_two]
    exact hs
  · rw [ht, bytesJoin_three]
    simp only [List.append_assoc]

/-- The assembly of C11 on the toy token `aA==.cA==.aw==`. -/
theorem Sign_token_assembly_witness :
    ∃ hj pj sig imp,
      marshalHeader (toyEnv none none) {} = (hj, none)
      ∧ marshalPayload (toyEnv none none) (some toyPayload) {} = (pj, none)
      ∧ (toyEnv none none).algImpMap HS256 = some imp
      ∧ imp.sign (base64StdEncode hj ++ periodBytes ++ base64StdEncode pj) (some toyKey)
          = (sig, none)
      ∧ toyToken = base64StdEncode hj ++ periodBytes ++ base64StdEncode pj ++ periodBytes
          ++ base64StdEncode sig
      ∧ (46 : Byte) ∉ base64StdEncode sig :=
  Sign_token_assembly (toyEnv none none) (some toyPayload) (some toyKey) none toyToken
    (by decide)

/-- C12: exactly three segments. Every token that `Sign` returns holds the separator
exactly twice and no white space, and splitting it at the separator gives the encoded
header, the encoded claims and the encoded signature, in this order. -/
theorem Sign_token_three_segments (env : Env) (payload : GoMap) (key : Option Key)
    (opt : Option SignOption) (token : Bytes)
    (hsign : (Sign env payload key opt).token = some token) :
    token.count 46 = 2
      ∧ (∀ b ∈ token, isSpace b = false)
      ∧ ∃ hj pj sig imp,
          marshalHeader env (opt.getD {}) = (hj, none)
          ∧ marshalPayload env payload (opt.getD {}) = (pj, none)
          ∧ env.algImpMap
              (if (opt.getD {}).Algorithm = "" then HS256 else (opt.getD {}).Algorithm)
                = some imp
          ∧ imp.sign (bytesJoin [base64StdEncode hj, base64StdEncode pj] periodBytes) key
              = (sig, none)
          ∧ token.splitOn 46
              = [base64StdEncode hj, base64StdEncode pj, base64StdEncode sig] := by
  obtain ⟨hj, pj, sig, imp, hh, hp, hi, hs, ht⟩ := Sign_success env payload key opt token hsign
  have h1 := period_not_mem_base64StdEncode hj
  have h2 := period_not_mem_base64StdEncode pj
  have h3 := period_not_mem_base64StdEncode sig
  have hjoin : token
      = [(46 : Byte)].intercalate [base64StdEncode hj, base64StdEncode pj, base64StdEncode sig] := by
    rw [ht, bytesJoin_three]
    simp [List.intercalate, periodBytes]
  refine ⟨?_, ?_, hj, pj, sig, imp, hh, hp, hi, hs, ?_⟩
  · rw [ht, bytesJoin_three]
    simp only [periodBytes, List.count_append, List.count_eq_zero.mpr h1,
      List.count_eq_zero.mpr h2, List.count_eq_zero.mpr h3]
    simp
  · intro b hb
    rw [ht, bytesJoin_three] at hb
    simp only [periodBytes, List.mem_append, List.mem_singleton] at hb
    rcases hb with (hb | rfl) | (hb | rfl) | hb
    · exact (isStdByte_not_separator b (base64StdEncode_isStdByte hj b hb)).2
    · decide
    · exact (isStdByte_not_separator b (base64StdEncode_isStdByte pj b hb)).2
    · decide
    · exact (isStdByte_not_separator b (base64StdEncode_isStdByte sig b hb)).2
  · rw [hjoin]
    apply List.splitOn_intercalate
    · intro l hl
      simp only [List.mem_cons, List.mem_singleton, List.not_mem_nil, or_false] at hl
      rcases hl with rfl | rfl | rfl
      · exact h1
      · exact h2
      · exact h3
    · simp

/-- The three segments of C12 on the toy token `aA==.cA==.aw==`. -/
theorem Sign_token_three_segments_witness :
    toyToken.count 46 = 2 ∧ (∀ b ∈ toyToken, isSpace b = false) :=
  ⟨(Sign_token_three_segments (toyEnv none none) (some toyPayload) (some toyKey) none
      toyToken (by decide)).1,
    (Sign_token_three_segments (toyEnv none none) (some toyPayload) (some toyKey) none
      toyToken (by decide)).2.1⟩

/-- C13, on the code: the token that `Sign` makes in the toy environment with `slashKey`
ends in the segment `///+`, which holds `+` and `/`; the base64url encoding of the same
signature bytes is `___-`. -/
theorem Sign_segment_not_base64url :
    (Sign (toyEnv none none) (some toyPayload) (some slashKey) none).token = some slashToken
      ∧ toyImp.sign (bytesJoin [base64StdEncode [104], base64StdEncode [112]] periodBytes)
          (some slashKey) = ([255, 255, 254], none)
      ∧ slashToken = bytesJoin [base64StdEncode [104], base64StdEncode [112],
          base64StdEncode [255, 255, 254]] periodBytes
      ∧ base64StdEncode [255, 255, 254] = [47, 47, 47, 43]
      ∧ base64URLEncode [255, 255, 254] = [95, 95, 95, 45]
      ∧ (43 : Byte) ∈ slashToken ∧ (47 : Byte) ∈ slashToken := by
  decide

/-- C13 as amended: every token that `Sign` returns is made of three segments that are
the standard base64 encodings, with padding, of the header JSON, the claims JSON and the
signature; each of their bytes is a letter, a digit, `+`, `/` or `=`. -/
theorem Sign_segments_base64_std (env : Env) (payload : GoMap) (key : Option Key)
    (opt : Option SignOption) (token : Bytes)
    (hsign : (Sign env payload key opt).token = some token) :
    ∃ hj pj sig imp,
      marshalHeader env (opt.getD {}) = (hj, none)
      ∧ marshalPayload env payload (opt.getD {}) = (pj, none)
      ∧ env.algImpMap
          (if (opt.getD {}).Algorithm = "" then HS256 else (opt.getD {}).Algorithm) = some imp
      ∧ imp.sign (bytesJoin [base64StdEncode hj, base64StdEncode pj] periodBytes) key
          = (sig, none)
      ∧ token = bytesJoin [base64StdEncode hj, base64StdEncode pj, base64StdEncode sig]
          periodBytes
      ∧ (∀ b ∈ base64StdEncode hj, isStdByte b = true)
      ∧ (∀ b ∈ base64StdEncode pj, isStdByte b = true)
      ∧ (∀ b ∈ base64StdEncode sig, isStdByte b = true) := by
  obtain ⟨hj, pj, sig, imp, hh, hp, hi, hs, ht⟩ := Sign_success env payload key opt token hsign
  exact ⟨hj, pj, sig, imp, hh, hp, hi, hs, ht, base64StdEncode_isStdByte hj,
    base64StdEncode_isStdByte pj, base64StdEncode_isStdByte sig⟩

/-- The amended C13 on the token `aA==.cA==.///+`. -/
theorem Sign_segments_base64_std_witness :
    ∃ hj pj sig imp,
      marshalHeader (toyEnv none none) {} = (hj, none)
      ∧ marshalPayload (toyEnv none none) (some toyPayload) {} = (pj, none)
      ∧ (toyEnv none none).algImpMap HS256 = some imp
      ∧ imp.sign (bytesJoin [base64StdEncode hj, base64StdEncode pj] periodBytes)
          (some slashKey) = (sig, none)
      ∧ slashToken = bytesJoin [base64StdEncode hj, base64StdEncode pj, base64StdEncode sig]
          periodBytes
      ∧ (∀ b ∈ base64StdEncode hj, isStdByte b = true)
      ∧ (∀ b ∈ base64StdEncode pj, isStdByte b = true)
      ∧ (∀ b ∈ base64StdEncode sig, isStdByte b = true) :=
  Sign_segments_base64_std (toyEnv none none) (some toyPayload) (some slashKey) none
    slashToken (by decide)

/-! ## The claims on the merged claims -/

/-- C14, on the code: `exp` is not an absolute time. For a nonzero `ExpiresIn` the claims
map of `marshalPayload` holds under `exp` the lifetime in whole seconds, truncated
toward zero, which differs from `iat` plus that lifetime whenever the clock is not at
zero; for a zero `ExpiresIn` the map has the payload's `exp` or none. -/
theorem marshalPayload_exp_is_lifetime (env : Env) (payload : GoMap) (opt : SignOption) :
    (opt.ExpiresIn ≠ 0 →
        (claimsMap env.now payload opt).1 "exp"
            = some (.num (opt.ExpiresIn.tdiv 1000000000))
          ∧ (env.now ≠ 0 →
              (claimsMap env.now payload opt).1 "exp"
                ≠ some (.num (env.now + opt.ExpiresIn.tdiv 1000000000))))
      ∧ (opt.ExpiresIn = 0 →
          (claimsMap env.now payload opt).1 "exp" = payload.lookup "exp") := by
  constructor
  · intro h
    have hexp : (claimsMap env.now payload opt).1 "exp"
        = some (.num (opt.ExpiresIn.tdiv 1000000000)) := by
      simp only [claimsMap, mergoMap]
      split_ifs <;> simp [Entries.set_apply, Entries.empty_apply]
    refine ⟨hexp, fun hnow heq => ?_⟩
    rw [hexp] at heq
    simp only [Option.some.injEq, Value.num.injEq] at heq
    omega
  · intro h
    simp only [claimsMap, mergoMap]
    split_ifs <;> simp_all [Entries.set_apply, Entries.empty_apply]

/-- The run of C14 on a lifetime of one hour at time `1700000000`: `exp` is `3600`. -/
theorem marshalPayload_exp_is_lifetime_witness :
    (claimsMap (toyEnv none none).now (some toyPayload) hourOption).1 "exp"
        = some (.num (Int.tdiv 3600000000000 1000000000))
      ∧ (claimsMap (toyEnv none none).now (some toyPayload) hourOption).1 "exp"
        ≠ some (.num ((toyEnv none none).now + Int.tdiv 3600000000000 1000000000)) :=
  ⟨((marshalPayload_exp_is_lifetime (toyEnv none none) (some toyPayload) hourOption).1
      (by decide)).1,
    ((marshalPayload_exp_is_lifetime (toyEnv none none) (some toyPayload) hourOption).1
      (by decide)).2 (by decide)⟩

/-- The claims map of `marshalPayload`, key by key. -/
theorem claimsMap_apply (now : Int) (payload : GoMap) (opt : SignOption) (key : String) :
    (claimsMap now payload opt).1 key =
      if key = "aud" ∧ opt.Audience ≠ "" then some (.str opt.Audience)
      else if key = "sub" ∧ opt.Subject ≠ "" then some (.str opt.Subject)
      else if key = "exp" ∧ opt.ExpiresIn ≠ 0 then
        some (.num (opt.ExpiresIn.tdiv 1000000000))
      else if key = "iss" ∧ opt.Issuer ≠ "" then some (.str opt.Issuer)
      else if key = "iat" then some (.num now)
      else payload.lookup key := by
  simp only [claimsMap, mergoMap]
  split_ifs <;> simp_all [Entries.set_apply, Entries.empty_apply]

/-- C15: the merged claims. The claims map that `marshalPayload` marshals holds `iat`
equal to the clock; its keys are `iat`, those of `iss`, `exp`, `sub`, `aud` that are
configured, and the keys of the payload, no others; every key that is not `iat` and not
set from configuration carries the payload's value. -/
theorem marshalPayload_merged_claims (env : Env) (payload : GoMap) (opt : SignOption) :
    marshalPayload env payload opt = env.jsonMarshal (claimsMap env.now payload opt).1
      ∧ (claimsMap env.now payload opt).1 "iat" = some (.num env.now)
      ∧ (∀ key, ((claimsMap env.now payload opt).1 key).isSome
          ↔ key = "iat" ∨ (key = "iss" ∧ opt.Issuer ≠ "")
            ∨ (key = "exp" ∧ opt.ExpiresIn ≠ 0) ∨ (key = "sub" ∧ opt.Subject ≠ "")
            ∨ (key = "aud" ∧ opt.Audience ≠ "") ∨ (payload.lookup key).isSome)
      ∧ (∀ key, key ≠ "iat" → ¬ (key = "iss" ∧ opt.Issuer ≠ "") →
          ¬ (key = "exp" ∧ opt.ExpiresIn ≠ 0) → ¬ (key = "sub" ∧ opt.Subject ≠ "") →
          ¬ (key = "aud" ∧ opt.Audience ≠ "") →
          (claimsMap env.now payload opt).1 key = payload.lookup key) := by
  refine ⟨marshalPayload_eq env payload opt, ?_, ?_, ?_⟩
  · rw [claimsMap_apply]
    simp
  · intro key
    rw [claimsMap_apply]
    split_ifs with h1 h2 h3 h4 h5 <;> simp_all
    tauto
  · intro key h0 h1 h2 h3 h4
    rw [claimsMap_apply]
    simp only [h0, h1, h2, h3, h4, if_false]

/-- The merged claims of C15 on the payload `user = ann` signed for audience `users` and
subject `ann`: the payload's entry passes through. -/
theorem marshalPayload_merged_claims_witness :
    (claimsMap (toyEnv none none).now (some toyPayload) audienceOption).1 "user"
      = GoMap.lookup (some toyPayload) "user" :=
  (marshalPayload_merged_claims (toyEnv none none) (some toyPayload) audienceOption).2.2.2
    "user" (by decide) (by decide) (by decide) (by decide) (by decide)

/-! ## The claims on errors and effects -/

/-- C16, on the code: the header is marshalled before the algorithm is looked up. In
`nanEnv` the payload serialises and the option names the unregistered `RS999`, but its
extension header does not serialise, and `Sign` returns the marshaller's error, not
`ErrInvalidAlgorithm`. -/
theorem Sign_unsupported_algorithm_counterexample :
    (marshalPayload nanEnv (some toyPayload) nanOption).2 = none
      ∧ nanOption.Algorithm ≠ "" ∧ nanEnv.algImpMap nanOption.Algorithm = none
      ∧ (Sign nanEnv (some toyPayload) (some toyKey) (some nanOption)).token = none
      ∧ (Sign nanEnv (some toyPayload) (some toyKey) (some nanOption)).err
        = some (.other "json: unsupported value")
      ∧ (Sign nanEnv (some toyPayload) (some toyKey) (some nanOption)).err
        ≠ some .ErrInvalidAlgorithm := by
  refine ⟨by decide, by decide, rfl, by decide, by decide, by decide⟩

/-- C16 as amended: for a non-nil payload and a non-nil key, when the header and the
claims both serialise, a non-empty `Algorithm` that is not registered makes `Sign`
return no token and `ErrInvalidAlgorithm`, with the caller's option as it was and
whatever else the registry holds; an empty `Algorithm` is resolved to `HS256`, and when
that is registered the error of `Sign` is the error of its `sign`, nil with a token when
it succeeds. -/
theorem Sign_unsupported_algorithm (env : Env) (p : Entries) (k : Key)
    (opt : Option SignOption) (hj pj : Bytes)
    (hh : marshalHeader env (opt.getD {}) = (hj, none))
    (hp : marshalPayload env (some p) (opt.getD {}) = (pj, none)) :
    ((opt.getD {}).Algorithm ≠ "" → env.algImpMap (opt.getD {}).Algorithm = none →
        Sign env (some p) (some k) opt = ⟨none, some .ErrInvalidAlgorithm, opt⟩)
      ∧ ((opt.getD {}).Algorithm = "" → ∀ imp, env.algImpMap HS256 = some imp →
          (Sign env (some p) (some k) opt).err
              = (imp.sign (bytesJoin [base64StdEncode hj, base64StdEncode pj] periodBytes)
                  (some k)).2
            ∧ ((Sign env (some p) (some k) opt).err = none →
                (Sign env (some p) (some k) opt).token
                  = some (bytesJoin [base64StdEncode hj, base64StdEncode pj,
                      base64StdEncode (imp.sign (bytesJoin [base64StdEncode hj,
                        base64StdEncode pj] periodBytes) (some k)).1] periodBytes))) := by
  constructor
  · intro hne hnone
    unfold Sign
    simp only [hh, hp, if_neg hne, hnone]
    rcases opt with _ | o <;> rfl
  · intro hempty imp hi
    unfold Sign
    simp only [hh, hp, if_pos hempty, hi]
    rcases hs : imp.sign (bytesJoin [base64StdEncode hj, base64StdEncode pj] periodBytes)
        (some k) with ⟨sig, _ | e⟩
    · simp
    · simp

/-- The amended C16 in the toy environment: `RS999` is not registered. -/
theorem Sign_unsupported_algorithm_witness :
    Sign (toyEnv none none) (some toyPayload) (some toyKey) (some { Algorithm := "RS999" })
      = ⟨none, some .ErrInvalidAlgorithm, some { Algorithm := "RS999" }⟩ :=
  (Sign_unsupported_algorithm (toyEnv none none) toyPayload toyKey
    (some { Algorithm := "RS999" }) [104] [112] rfl rfl).1 (by decide) rfl

/-- C17, on the code: `Verify` hands on the error of the implementation as it is. In the
toy environment a key of the wrong type and a key that did not sign the token make
`Verify` return two different errors, so not one invalid-signature error for both. -/
theorem Verify_signature_error_counterexample :
    Verify (toyEnv (some (headerMap {}).1) none) toyToken (some stringKey)
        (some { Algorithm := HS256 })
        = .returned none none (some (.other "invalid key type"))
      ∧ Verify (toyEnv (some (headerMap {}).1) none) toyToken (some otherKey)
          (some { Algorithm := HS256 })
        = .returned none none (some (.other "invalid signature"))
      ∧ Error.other "invalid key type" ≠ Error.other "invalid signature" :=
  ⟨rfl, rfl, by decide⟩

/-- C17 as amended: for a token that decodes with header type `JWT` and a registered
`opt.Algorithm`, when the implementation's `verify` fails with an error, `Verify` returns
that same error and neither header nor claims. -/
theorem Verify_signature_error_passed_on (env : Env) (token : Bytes) (key : Option Key)
    (vopt : VerifyOption) (header payload : GoMap) (imp : AlgorithmImplementation)
    (e : Error)
    (hdec : env.decode token = (header, payload, none))
    (htyp : header.lookup "typ" = some (.str "JWT"))
    (hi : env.algImpMap vopt.Algorithm = some imp)
    (hv : imp.verify token key = some e) :
    Verify env token key (some vopt) = .returned none none (some e) := by
  rw [Verify_of_typ_JWT env token key vopt header payload hdec htyp, hi]
  simp only [hv]

/-- The amended C17 in the toy environment, on a key of the wrong type. -/
theorem Verify_signature_error_passed_on_witness :
    Verify (toyEnv (some (headerMap {}).1) none) toyToken (some stringKey)
        (some { Algorithm := HS256 })
      = .returned none none (some (.other "invalid key type")) :=
  Verify_signature_error_passed_on (toyEnv (some (headerMap {}).1) none) toyToken
    (some stringKey) { Algorithm := HS256 } (some (headerMap {}).1) none toyImp
    (.other "invalid key type") rfl rfl rfl rfl

/-- When `decode` fails, `Verify` returns its error whatever the option is. -/
theorem Verify_of_decode_error (env : Env) (token : Bytes) (key : Option Key)
    (opt : Option VerifyOption) (header payload : GoMap) (e : Error)
    (hdec : env.decode token = (header, payload, some e)) :
    Verify env token key opt = .returned none none (some e) := by
  unfold Verify
  rw [hdec]

/-- When the decoded header is not of type `JWT`, `Verify` returns `ErrInvalidHeaderType`
whatever the option is. -/
theorem Verify_of_bad_typ (env : Env) (token : Bytes) (key : Option Key)
    (opt : Option VerifyOption) (header payload : GoMap)
    (hdec : env.decode token = (header, payload, none))
    (htyp : header.lookup "typ" ≠ some (.str "JWT")) :
    Verify env token key opt = .returned none none (some .ErrInvalidHeaderType) := by
  unfold Verify
  rw [hdec]
  simp only
  rcases hl : header.lookup "typ" with _ | v
  · rfl
  · cases v with
    | str s =>
      have hs : s ≠ "JWT" := fun h => htyp (by rw [hl, h])
      simp only [if_pos hs]
    | null => rfl
    | bool b => rfl
    | num n => rfl
    | arr l => rfl
    | obj l => rfl

/-- With a nil option and a decoded header of type `JWT`, `Verify` reaches the
dereference of the nil pointer. -/
theorem Verify_nil_of_typ_JWT (env : Env) (token : Bytes) (key : Option Key)
    (header payload : GoMap)
    (hdec : env.decode token = (header, payload, none))
    (htyp : header.lookup "typ" = some (.str "JWT")) :
    Verify env token key none = .nilDereference := by
  unfold Verify
  rw [hdec]
  simp only [htyp]
  simp

/-- C18: no partial results. `Sign` returns a token with a nil error, or no token with
an error. `Verify` under a non-nil option returns the error of `decode` when that fails,
else `ErrInvalidHeaderType` when the header is not of type `JWT`, else
`ErrInvalidAlgorithm` when the option's algorithm is not registered, else the error of
the implementation's `verify`, each time with nil header and claims; when no step fails
it returns the decoded header and claims with a nil error. -/
theorem no_partial_results (env : Env) (payload : GoMap) (key : Option Key)
    (opt : Option SignOption) (token : Bytes) (vkey : Option Key) (vopt : VerifyOption) :
    ((∃ t, (Sign env payload key opt).token = some t ∧ (Sign env payload key opt).err = none)
        ∨ ((Sign env payload key opt).token = none
          ∧ ∃ e, (Sign env payload key opt).err = some e))
      ∧ (∀ e, (env.decode token).2.2 = some e →
          Verify env token vkey (some vopt) = .returned none none (some e))
      ∧ ((env.decode token).2.2 = none →
          (env.decode token).1.lookup "typ" ≠ some (.str "JWT") →
          Verify env token vkey (some vopt)
            = .returned none none (some .ErrInvalidHeaderType))
      ∧ ((env.decode token).2.2 = none →
          (env.decode token).1.lookup "typ" = some (.str "JWT") →
          env.algImpMap vopt.Algorithm = none →
          Verify env token vkey (some vopt)
            = .returned none none (some .ErrInvalidAlgorithm))
      ∧ (∀ imp e, (env.decode token).2.2 = none →
          (env.decode token).1.lookup "typ" = some (.str "JWT") →
          env.algImpMap vopt.Algorithm = some imp → imp.verify token vkey = some e →
          Verify env token vkey (some vopt) = .returned none none (some e))
      ∧ (∀ imp, (env.decode token).2.2 = none →
          (env.decode token).1.lookup "typ" = some (.str "JWT") →
          env.algImpMap vopt.Algorithm = some imp → imp.verify token vkey = none →
          Verify env token vkey (some vopt)
            = .returned (env.decode token).1 (env.decode token).2.1 none) := by
  rcases hd : env.decode token with ⟨header, pl, derr⟩
  refine ⟨?_, ?_, ?_, ?_, ?_, ?_⟩
  · rcases payload with _ | p
    · exact Or.inr ⟨rfl, _, rfl⟩
    rcases key with _ | k
    · exact Or.inr ⟨rfl, _, rfl⟩
    unfold Sign
    simp only [marshalHeader_eq, marshalPayload_eq]
    rcases env.jsonMarshal (headerMap (opt.getD {})).1 with ⟨hj, _ | e⟩
    swap
    · exact Or.inr ⟨rfl, _, rfl⟩
    rcases env.jsonMarshal (claimsMap env.now (some p) (opt.getD {})).1 with ⟨pj, _ | e⟩
    swap
    · exact Or.inr ⟨rfl, _, rfl⟩
    simp only
    split
    · exact Or.inr ⟨rfl, _, rfl⟩
    · split
      · exact Or.inr ⟨rfl, _, rfl⟩
      · exact Or.inl ⟨_, rfl, rfl⟩
  · intro e he
    simp only at he
    subst he
    exact Verify_of_decode_error env token vkey (some vopt) header pl e hd
  · intro he htyp
    simp only at he htyp
    subst he
    exact Verify_of_bad_typ env token vkey (some vopt) header pl hd htyp
  · intro he htyp hi
    simp only at he htyp
    subst he
    rw [Verify_of_typ_JWT env token vkey vopt header pl hd htyp, hi]
  · intro imp e he htyp hi hv
    simp only at he htyp
    subst he
    rw [Verify_of_typ_JWT env token vkey vopt header pl hd htyp, hi]
    simp only [hv]
  · intro imp he htyp hi hv
    simp only at he htyp
    subst he
    rw [Verify_of_typ_JWT env token vkey vopt header pl hd htyp, hi]
    simp only [hv]

/-- The order of C18 in the toy environment: a header of type `JWS` and an unregistered
algorithm give the error of the header type. -/
theorem no_partial_results_witness :
    Verify (toyEnv (some jwsHeader) none) toyToken (some toyKey) (some { Algorithm := "RS999" })
      = .returned none none (some .ErrInvalidHeaderType) :=
  (no_partial_results (toyEnv (some jwsHeader) none) (some toyPayload) (some toyKey) none
    toyToken (some toyKey) { Algorithm := "RS999" }).2.2.1 rfl (by
      intro h
      have h2 : (Value.str "JWS") = Value.str "JWT" := Option.some.inj h
      simp at h2)

/-- The caller's option after `Sign`: the one assignment of `Sign` is that of `HS256` to
an empty `Algorithm`, reached when both guards are passed and both maps are marshalled. -/
theorem Sign_opt (env : Env) (payload : GoMap) (key : Option Key) (o : SignOption) :
    (Sign env payload key (some o)).opt
      = some (if payload.isSome = true ∧ key ≠ none ∧ (marshalHeader env o).2 = none
            ∧ (marshalPayload env payload o).2 = none ∧ o.Algorithm = ""
          then { o with Algorithm := HS256 } else o) := by
  rcases payload with _ | p
  · simp [Sign]
  rcases key with _ | k
  · simp [Sign]
  unfold Sign
  simp only [Option.getD_some]
  rcases marshalHeader env o with ⟨hj, _ | e⟩
  swap
  · simp
  rcases marshalPayload env (some p) o with ⟨pj, _ | e⟩
  swap
  · simp
  simp only
  by_cases ha : o.Algorithm = ""
  · simp only [ha, if_true]
    split
    · simp
    · split <;> simp
  · simp only [ha, if_false]
    split
    · simp
    · split <;> simp

/-- The token and the error of `Sign` are the same for a nil option and for an option
with every field at its zero value. -/
theorem Sign_nil_option (env : Env) (payload : GoMap) (key : Option Key) :
    (Sign env payload key none).token = (Sign env payload key (some {})).token
      ∧ (Sign env payload key none).err = (Sign env payload key (some {})).err := by
  rcases payload with _ | p
  · exact ⟨rfl, rfl⟩
  rcases key with _ | k
  · exact ⟨rfl, rfl⟩
  unfold Sign
  simp only [Option.getD_some, Option.getD_none]
  rcases marshalHeader env {} with ⟨hj, _ | e⟩
  swap
  · exact ⟨rfl, rfl⟩
  rcases marshalPayload env (some p) {} with ⟨pj, _ | e⟩
  swap
  · exact ⟨rfl, rfl⟩
  simp only
  split
  · exact ⟨rfl, rfl⟩
  · split <;> exact ⟨rfl, rfl⟩

/-- The payload map is as before after `Sign`: no path of `Sign` writes to it. -/
theorem SignPayload_eq (env : Env) (payload : GoMap) (key : Option Key)
    (opt : Option SignOption) : SignPayload env payload key opt = payload := by
  unfold SignPayload
  rcases payload with _ | p
  · rfl
  rcases key with _ | k
  · rfl
  simp only
  rcases marshalHeader env (opt.getD {}) with ⟨hj, _ | e⟩
  · rfl
  · rfl

/-- The map behind `opt.Header` is as before after `marshalHeader`. -/
theorem marshalHeaderSource_eq (opt : SignOption) : marshalHeaderSource opt = opt.Header := by
  unfold marshalHeaderSource
  rcases opt.Header with _ | ext <;> rfl

/-- C19: frame of `Sign`. After `Sign` on a non-nil option, the caller's payload map and
the map behind `opt.Header` are as before, and the caller's option has its `ExpiresIn`,
`Audience`, `Issuer`, `Subject` and `Header` as before; a non-empty `Algorithm` is as
before; an empty `Algorithm` is `HS256` exactly when payload and key were non-nil and
header and claims were both marshalled, and is empty otherwise. In the first case the
header of this call was built with the empty `alg`, while a call that takes the option
as it now is builds its header with `alg` equal to `HS256`. -/
theorem Sign_option_frame (env : Env) (payload : GoMap) (key : Option Key)
    (o : SignOption) :
    SignPayload env payload key (some o) = payload
      ∧ marshalHeaderSource o = o.Header
      ∧ ∃ o', (Sign env payload key (some o)).opt = some o'
        ∧ o'.ExpiresIn = o.ExpiresIn ∧ o'.Audience = o.Audience ∧ o'.Issuer = o.Issuer
        ∧ o'.Subject = o.Subject ∧ o'.Header = o.Header
        ∧ (o.Algorithm ≠ "" → o'.Algorithm = o.Algorithm)
        ∧ (o.Algorithm = "" →
            (o'.Algorithm = HS256 ∨ o'.Algorithm = "")
            ∧ (o'.Algorithm = HS256
                ↔ payload ≠ none ∧ key ≠ none ∧ (marshalHeader env o).2 = none
                  ∧ (marshalPayload env payload o).2 = none)
            ∧ (o'.Algorithm = HS256 →
                (headerMap o).1 "alg" = some (.str "")
                  ∧ (headerMap o').1 "alg" = some (.str HS256))) := by
  refine ⟨SignPayload_eq env payload key (some o), marshalHeaderSource_eq o,
    _, Sign_opt env payload key o, ?_⟩
  by_cases hc : payload.isSome = true ∧ key ≠ none ∧ (marshalHeader env o).2 = none
      ∧ (marshalPayload env payload o).2 = none ∧ o.Algorithm = ""
  · rw [if_pos hc]
    obtain ⟨h1, h2, h3, h4, h5⟩ := hc
    refine ⟨rfl, rfl, rfl, rfl, rfl, fun hne => absurd h5 hne, fun _ => ?_⟩
    refine ⟨Or.inl rfl, ⟨fun _ => ⟨Option.isSome_iff_ne_none.mp h1, h2, h3, h4⟩,
      fun _ => rfl⟩, fun _ => ?_⟩
    constructor
    · rw [headerMap_alg, h5]
    · rw [headerMap_alg]
  · rw [if_neg hc]
    refine ⟨rfl, rfl, rfl, rfl, rfl, fun _ => rfl, fun he => ?_⟩
    have hne : o.Algorithm ≠ HS256 := by
      rw [he]
      decide
    refine ⟨Or.inr he, ⟨fun h => absurd h hne, fun ⟨h1, h2, h3, h4⟩ => ?_⟩,
      fun h => absurd h hne⟩
    exact absurd ⟨Option.isSome_iff_ne_none.mpr h1, h2, h3, h4, he⟩ hc

/-- The frame of C19 in the toy environment: `Sign` with an option of zero values leaves
the payload map as it was and `HS256` in the option's `Algorithm`. -/
theorem Sign_option_frame_witness :
    SignPayload (toyEnv none none) (some toyPayload) (some toyKey) (some {})
        = some toyPayload
      ∧ (Sign (toyEnv none none) (some toyPayload) (some toyKey) (some {})).opt.map
          (fun o => o.Algorithm) = some HS256
      ∧ (headerMap {}).1 "alg" = some (.str "")
      ∧ (headerMap { Algorithm := HS256 }).1 "alg" = some (.str HS256) := by
  obtain ⟨hpl, -, o', ho, -, -, -, -, -, -, h⟩ :=
    Sign_option_frame (toyEnv none none) (some toyPayload) (some toyKey) {}
  have hA : o'.Algorithm = HS256 :=
    (h rfl).2.1.mpr ⟨by simp, by simp, rfl, rfl⟩
  refine ⟨hpl, ?_, headerMap_alg {}, headerMap_alg { Algorithm := HS256 }⟩
  rw [ho]
  simp [hA]

/-- C20: nil option of `Verify`. Under a non-nil option `Verify` returns. Under a nil
option it dereferences the nil pointer exactly when `decode` succeeds and the header is
of type `JWT`; when `decode` fails it returns that error and when the header type is
wrong it returns `ErrInvalidHeaderType`. `Sign` with a nil option gives the token and
the error it gives with an option of zero values. -/
theorem Verify_nil_option (env : Env) (token : Bytes) (key : Option Key)
    (payload : GoMap) (skey : Option Key) :
    (∀ vopt, ∃ h p e, Verify env token key (some vopt) = .returned h p e)
      ∧ (Verify env token key none = .nilDereference
          ↔ (env.decode token).2.2 = none
            ∧ (env.decode token).1.lookup "typ" = some (.str "JWT"))
      ∧ (∀ e, (env.decode token).2.2 = some e →
          Verify env token key none = .returned none none (some e))
      ∧ ((env.decode token).2.2 = none →
          (env.decode token).1.lookup "typ" ≠ some (.str "JWT") →
          Verify env token key none = .returned none none (some .ErrInvalidHeaderType))
      ∧ (Sign env payload skey none).token = (Sign env payload skey (some {})).token
      ∧ (Sign env payload skey none).err = (Sign env payload skey (some {})).err := by
  rcases hd : env.decode token with ⟨header, pl, derr⟩
  simp only
  refine ⟨?_, ?_, ?_, ?_, Sign_nil_option env payload skey⟩
  · intro vopt
    rcases derr with _ | e
    · by_cases htyp : header.lookup "typ" = some (.str "JWT")
      · rw [Verify_of_typ_JWT env token key vopt header pl hd htyp]
        rcases env.algImpMap vopt.Algorithm with _ | imp
        · exact ⟨_, _, _, rfl⟩
        · simp only
          rcases imp.verify token key with _ | e
          · exact ⟨_, _, _, rfl⟩
          · exact ⟨_, _, _, rfl⟩
      · exact ⟨_, _, _, Verify_of_bad_typ env token key (some vopt) header pl hd htyp⟩
    · exact ⟨_, _, _, Verify_of_decode_error env token key (some vopt) header pl e hd⟩
  · constructor
    · intro hv
      rcases derr with _ | e
      · by_cases htyp : header.lookup "typ" = some (.str "JWT")
        · exact ⟨rfl, htyp⟩
        · rw [Verify_of_bad_typ env token key none header pl hd htyp] at hv
          cases hv
      · rw [Verify_of_decode_error env token key none header pl e hd] at hv
        cases hv
    · rintro ⟨he, htyp⟩
      subst he
      exact Verify_nil_of_typ_JWT env token key header pl hd htyp
  · intro e he
    subst he
    exact Verify_of_decode_error env token key none header pl e hd
  · intro he htyp
    subst he
    exact Verify_of_bad_typ env token key none header pl hd htyp

/-- The nil option of C20 in the toy environment: the token decodes with a header of type
`JWT`, and `Verify` with a nil option ends in the dereference. -/
theorem Verify_nil_option_witness :
    Verify (toyEnv (some (headerMap {}).1) none) toyToken (some toyKey) none
      = .nilDereference :=
  (Verify_nil_option (toyEnv (some (headerMap {}).1) none) toyToken (some toyKey)
    (some toyPayload) (some toyKey)).2.1.mpr ⟨rfl, rfl⟩

end Jwt
